/-
Verification development for the IT-asset-management backend.

Shallow embedding of the asset lifecycle / assignment / repair core:
  - app/db/models.py                      (relational schema, constraints)
  - app/db/repositories/asset_repository.py  (AssetRepository methods and the
    module-level repair functions that follow the class body)
  - app/db/repositories/summary_repository.py
  - app/api/routes/assets.py              (repair endpoints)
  - DB_utils.py                           (legacy mysql-connector implementation:
    generate_asset_id, get_summary_data)

The relational store is a record of row lists; each operation is a pure
function from store to store, returning Except to model raised exceptions.
A raised exception triggers session rollback, modelled by the Committed
wrappers returning the pre-call store.  Dates and timestamps are carried as
natural numbers supplied by the caller (datetime.now()); date-string parsing
and the cost columns are carried through opaquely since no claim depends on
them.
-/
import Mathlib

namespace AssetMgmt

/-! ### Decimal rendering of natural numbers

The identifier generator formats ids with a Python f-string, embedded as
String.append of Nat.repr.  To reason about distinctness of generated ids we
prove that Nat.repr is injective. -/

/-- Character list produced by the decimal printer: a lone digit 0 for zero,
otherwise the base-10 digits in most-significant-first order. -/
def reprDigits (n : Nat) : List Char :=
  if n = 0 then ['0'] else ((Nat.digits 10 n).map Nat.digitChar).reverse

theorem toDigitsCore_eq_reprDigits (f : Nat) : ∀ (n : Nat) (l : List Char), n < f →
    Nat.toDigitsCore 10 f n l = reprDigits n ++ l := by
  induction f with
  | zero => intro n l h; omega
  | succ f ih =>
    intro n l h
    rw [Nat.toDigitsCore]
    by_cases h10 : n / 10 = 0
    · have hn10 : n < 10 := by omega
      simp only [h10, if_true]
      by_cases hn : n = 0
      · subst hn
        simp only [reprDigits, if_true]
        norm_num
        decide
      · have hdig : Nat.digits 10 n = [n] := by
          rw [Nat.digits_def' (by norm_num : (1:Nat) < 10) (Nat.pos_of_ne_zero hn)]
          rw [Nat.mod_eq_of_lt hn10, h10]
          simp
        simp [reprDigits, hn, hdig, Nat.mod_eq_of_lt hn10]
    · have hn : n ≠ 0 := by
        intro h0; subst h0; simp at h10
      have hlt : n / 10 < f := by
        have h1 : n / 10 < n := Nat.div_lt_self (Nat.pos_of_ne_zero hn) (by norm_num)
        omega
      simp only [h10, if_false]
      rw [ih (n / 10) (Nat.digitChar (n % 10) :: l) hlt]
      have hd : Nat.digits 10 n = n % 10 :: Nat.digits 10 (n / 10) :=
        Nat.digits_def' (by norm_num) (Nat.pos_of_ne_zero hn)
      simp [reprDigits, hn, h10, hd]

theorem repr_eq_reprDigits (n : Nat) : Nat.repr n = (reprDigits n).asString := by
  have h : Nat.toDigitsCore 10 (n + 1) n [] = reprDigits n ++ [] :=
    toDigitsCore_eq_reprDigits (n + 1) n [] (Nat.lt_succ_self n)
  simp [Nat.repr, Nat.toDigits, h]

theorem digitChar_inj_fin : ∀ a b : Fin 10, Nat.digitChar a.val = Nat.digitChar b.val → a = b := by
  decide

theorem mapDigitChar_inj : ∀ (l1 l2 : List Nat), (∀ d ∈ l1, d < 10) → (∀ d ∈ l2, d < 10) →
    l1.map Nat.digitChar = l2.map Nat.digitChar → l1 = l2 := by
  intro l1
  induction l1 with
  | nil => intro l2 _ _ h; cases l2 <;> simp_all
  | cons a t ih =>
    intro l2 h1 h2 h
    cases l2 with
    | nil => simp_all
    | cons b t2 =>
      simp only [List.map_cons, List.cons.injEq] at h
      have ha : a < 10 := h1 a (by simp)
      have hb : b < 10 := h2 b (by simp)
      have hfin : (⟨a, ha⟩ : Fin 10) = ⟨b, hb⟩ := digitChar_inj_fin _ _ h.1
      have hab : a = b := by simpa using congrArg Fin.val hfin
      have ht : t = t2 :=
        ih t2 (fun d hd => h1 d (by simp [hd])) (fun d hd => h2 d (by simp [hd])) h.2
      simp [hab, ht]

theorem reprDigits_inj : ∀ m n : Nat, reprDigits m = reprDigits n → m = n := by
  have onto0 : ∀ k : Nat, k ≠ 0 → reprDigits k ≠ ['0'] := by
    intro k hk h
    simp only [reprDigits, hk, if_false] at h
    have h2 : (Nat.digits 10 k).map Nat.digitChar = ['0'] := by
      have := congrArg List.reverse h
      simpa using this
    have h3 : Nat.digits 10 k = [0] := by
      apply mapDigitChar_inj _ _ (fun d hd => Nat.digits_lt_base (by norm_num) hd)
        (by intro d hd; simp at hd; omega)
      simpa [Nat.digitChar] using h2
    have h4 := congrArg (Nat.ofDigits 10) h3
    rw [Nat.ofDigits_digits] at h4
    simp [Nat.ofDigits] at h4
    omega
  intro m n h
  by_cases hm : m = 0 <;> by_cases hn : n = 0
  · omega
  · exfalso
    apply onto0 n hn
    rw [← h, hm]
    simp [reprDigits]
  · exfalso
    apply onto0 m hm
    rw [h, hn]
    simp [reprDigits]
  · simp only [reprDigits, hm, hn, if_false] at h
    have h2 := List.reverse_injective h
    have h3 := mapDigitChar_inj _ _ (fun d hd => Nat.digits_lt_base (by norm_num) hd)
      (fun d hd => Nat.digits_lt_base (by norm_num) hd) h2
    have h4 := congrArg (Nat.ofDigits 10) h3
    rwa [Nat.ofDigits_digits, Nat.ofDigits_digits] at h4

theorem natRepr_inj (m n : Nat) (h : Nat.repr m = Nat.repr n) : m = n := by
  rw [repr_eq_reprDigits, repr_eq_reprDigits] at h
  apply reprDigits_inj
  have h2 := congrArg String.data h
  simpa [List.asString] using h2

/-- Injectivity of the generated identifier format AST_ followed by the counter. -/
theorem astId_inj (m n : Nat) (h : "AST_" ++ Nat.repr m = "AST_" ++ Nat.repr n) : m = n := by
  apply natRepr_inj
  have h2 := congrArg String.data h
  simp only [String.data_append] at h2
  exact String.ext (List.append_cancel_left h2)

/-! ### Data model

Rows of the tables declared in app/db/models.py that the asset core touches.
Surrogate AUTO_INCREMENT keys are omitted; row identity is positional, which
matches the ORM identity map for the operations embedded here (they mutate
rows fetched as the first match of a filter). -/

/-- Row of assetdata (class AssetData).  DateOfPurchase / WarrantyExpiry and
the cost columns are opaque payloads here: create stores the request values
through and no claim inspects them. -/
structure Asset where
  assetId : String
  serialNo : String
  assetType : String
  brand : String
  model : String
  dateOfPurchase : Option String
  productCost : Int
  gst : Int
  warrantyExpiry : Option String
  assignedTo : Option String
  repairStatus : Bool
  isTempAsset : Bool
deriving Repr, DecidableEq

/-- Row of specdata (class SpecData). -/
structure SpecRow where
  assetId : String
  assetTypeName : String
  specFieldName : String
  specFieldValue : String
deriving Repr, DecidableEq

/-- Row of assignmenthistory (class AssignmentHistory).  EmployeeName is
nullable in the schema (the ORM stores employee.Name, itself nullable). -/
structure HistoryRow where
  assetId : String
  employeeId : String
  employeeName : Option String
  assignedOn : Nat
  returnedOn : Option Nat
  isActive : Bool
deriving Repr, DecidableEq

/-- Row of repairstatustracker (class RepairStatusTracker).  The table also
declares CheckConstraint AssetId <> TempAssetId, enforced at insert time by
insertRepairRow below. -/
structure RepairRow where
  assetId : String
  tempAssetId : String
  repairDetails : String
  repairStart : Nat
  repairEnd : Option Nat
deriving Repr, DecidableEq

/-- Row of peopledata (class PeopleData). -/
structure Employee where
  nameId : String
  name : Option String
  department : Option String
  email : Option String
deriving Repr, DecidableEq

/-- Row of assetspecifications joined with assettypes: the per-type field
schema (field_key to field_label). -/
structure SpecField where
  typeName : String
  fieldKey : String
  fieldLabel : String
deriving Repr, DecidableEq

/-- The relational store.  counter is the single assetidcounter row
(current_value), none when the row is missing. -/
structure DB where
  counter : Option Nat
  assets : List Asset
  specs : List SpecRow
  history : List HistoryRow
  repairs : List RepairRow
  people : List Employee
  specFields : List SpecField
deriving Repr, DecidableEq

/-- Python truthiness of an optional string (None and the empty string are
falsy). -/
def isTruthy : Option String → Bool
  | none => false
  | some s => s != ""

/-- Embedding of the Python idiom x or None. -/
def pyOrNone (x : Option String) : Option String :=
  if isTruthy x then x else none

/-- session.get(AssetData, asset_id): primary-key lookup. -/
def findAsset (db : DB) (assetId : String) : Option Asset :=
  db.assets.find? (fun a => a.assetId == assetId)

/-- session.get(PeopleData, employee_id). -/
def findPerson (db : DB) (employeeId : String) : Option Employee :=
  db.people.find? (fun p => p.nameId == employeeId)

/-- emp_name = employee.Name if employee else employee_id: resolve the display
name, falling back to the raw id when the employee row is missing. -/
def resolveEmpName (db : DB) (employeeId : String) : Option String :=
  match findPerson db employeeId with
  | some emp => emp.name
  | none => some employeeId

/-- Number of assignment records for an asset with IsActive = TRUE. -/
def countActiveFor (db : DB) (assetId : String) : Nat :=
  db.history.countP (fun r => r.assetId == assetId && r.isActive)

/-- Number of repair records for an asset with RepairEndTimestamp IS NULL. -/
def countOpenRepairs (db : DB) (assetId : String) : Nat :=
  db.repairs.countP (fun r => r.assetId == assetId && r.repairEnd == none)

/-! ### Identifier generation -/

/-- Identifier-generation step embedded in AssetRepository.create
(asset_repository.py lines 250-256): if the counter row is missing it is
created with current_value = 1000, then current_value is incremented and the
id is formatted as AST_ plus the new value.  Returns the id and the new
counter value. -/
def ormNextId (counter : Option Nat) : String × Nat :=
  let cur := match counter with
    | some v => v
    | none => 1000
  let newVal := cur + 1
  ("AST_" ++ Nat.repr newVal, newVal)

/-- DB_utils.generate_asset_id (lines 402-448): UPDATE the counter row, then
SELECT current_value.  When the counter row is missing the UPDATE matches no
row, the SELECT fetches None and result[0] raises TypeError; nothing is
initialized and no id is issued. -/
def generate_asset_id (counter : Option Nat) : Except String (String × Nat) :=
  match counter with
  | none => Except.error "TypeError: NoneType object is not subscriptable"
  | some v => Except.ok ("AST_" ++ Nat.repr (v + 1), v + 1)

/-- A call to either generator implementation. -/
inductive GenCall
  | orm
  | legacy
deriving Repr, DecidableEq

/-- Run a sequence of generator calls against the counter, collecting the
issued (identifier, counter value) pairs.  A legacy call on a missing counter
row raises and issues nothing; later calls still run. -/
def runGenSeq (counter : Option Nat) : List GenCall → List (String × Nat)
  | [] => []
  | GenCall.orm :: rest =>
    let r := ormNextId counter
    r :: runGenSeq (some r.2) rest
  | GenCall.legacy :: rest =>
    match generate_asset_id counter with
    | Except.ok r => r :: runGenSeq (some r.2) rest
    | Except.error _ => runGenSeq counter rest

/-! ### AssetRepository.create -/

/-- Abort points inside AssetRepository.create, used to inject a failure
after each of the four write steps named by the spec (all before commit). -/
inductive CreateStage
  | genId
  | assetInsert
  | specInserts
  | assignInsert
deriving Repr, DecidableEq

/-- Request payload for asset creation (AssetCreateRequest fields consumed by
AssetRepository.create). -/
structure CreateInput where
  serialNumber : String
  assetType : String
  brand : String
  model : String
  purchaseDate : Option String
  warrantyExpiry : Option String
  purchaseCost : Int
  gstPaid : Int
  assignedTo : Option String
  repairStatus : Bool
  specifications : List (String × String)
deriving Repr, DecidableEq

/-- field_mapping.get(field_key, field_key): resolve a specification key to
its display label through the per-type schema, falling back to the raw key. -/
def specLabel (db : DB) (typeName fieldKey : String) : String :=
  match db.specFields.find? (fun s => s.typeName == typeName && s.fieldKey == fieldKey) with
  | some s => s.fieldLabel
  | none => fieldKey

/-- Specification rows inserted by create: one per non-empty value, labelled
through the schema of the declared asset type. -/
def specRowsFor (db : DB) (assetId : String) (inp : CreateInput) : List SpecRow :=
  (inp.specifications.filter (fun kv => kv.2 != "")).map (fun kv =>
    { assetId := assetId, assetTypeName := inp.assetType,
      specFieldName := specLabel db inp.assetType kv.1, specFieldValue := kv.2 })

/-- AssetRepository.create (asset_repository.py lines 245-340): one
transaction performing (a) id generation, (b) the asset insert (the declared
primary-key and unique_serial_brand_type constraints are checked there),
(c) the specification inserts, (d) the initial assignment insert when a
holder is given.  failAt injects an exception right after the corresponding
step; any exception is caught, the session is rolled back and the error is
re-raised (modelled by returning Except.error, the committed store being the
pre-call one, see createCommitted). -/
def AssetRepository.create (db : DB) (today : Nat) (inp : CreateInput)
    (failAt : Option CreateStage) : Except String (String × DB) :=
  let idv := ormNextId db.counter
  let asset_id := idv.1
  let db1 : DB := { db with counter := some idv.2 }
  if failAt == some CreateStage.genId then
    Except.error "injected failure after id generation" else
  if db1.assets.any (fun a => a.assetId == asset_id) then
    Except.error "IntegrityError: duplicate primary key for assetdata" else
  if db1.assets.any (fun a => a.serialNo == inp.serialNumber && a.brand == inp.brand
      && a.assetType == inp.assetType) then
    Except.error "IntegrityError: duplicate entry for key unique_serial_brand_type" else
  let assigned_to := pyOrNone inp.assignedTo
  let newAsset : Asset :=
    { assetId := asset_id, serialNo := inp.serialNumber, assetType := inp.assetType,
      brand := inp.brand, model := inp.model, dateOfPurchase := inp.purchaseDate,
      productCost := inp.purchaseCost, gst := inp.gstPaid,
      warrantyExpiry := inp.warrantyExpiry, assignedTo := assigned_to,
      repairStatus := inp.repairStatus, isTempAsset := false }
  let db2 : DB := { db1 with assets := db1.assets ++ [newAsset] }
  if failAt == some CreateStage.assetInsert then
    Except.error "injected failure after asset insert" else
  let db3 : DB := { db2 with specs := db2.specs ++ specRowsFor db asset_id inp }
  if failAt == some CreateStage.specInserts then
    Except.error "injected failure after specification inserts" else
  let db4 : DB :=
    match assigned_to with
    | some emp =>
      { db3 with history := db3.history ++
          [{ assetId := asset_id, employeeId := emp, employeeName := resolveEmpName db emp,
             assignedOn := today, returnedOn := none, isActive := true }] }
    | none => db3
  if failAt == some CreateStage.assignInsert then
    Except.error "injected failure after assignment insert" else
  Except.ok (asset_id, db4)

/-- Store visible after the create call returns or raises: commit on success,
rollback to the pre-call store on any exception. -/
def createCommitted (db : DB) (today : Nat) (inp : CreateInput)
    (failAt : Option CreateStage) : DB :=
  match AssetRepository.create db today inp failAt with
  | Except.ok r => r.2
  | Except.error _ => db

/-- Identifier that the create call would issue against this store. -/
def wouldBeAssetId (db : DB) : String :=
  (ormNextId db.counter).1

/-- No asset row, specification row, assignment record or repair record keyed
by the given identifier exists in the store. -/
def noTraceOf (db : DB) (assetId : String) : Prop :=
  (∀ a ∈ db.assets, a.assetId ≠ assetId) ∧
  (∀ s ∈ db.specs, s.assetId ≠ assetId) ∧
  (∀ r ∈ db.history, r.assetId ≠ assetId) ∧
  (∀ r ∈ db.repairs, r.assetId ≠ assetId)

instance (db : DB) (assetId : String) : Decidable (noTraceOf db assetId) := by
  unfold noTraceOf
  infer_instance

/-! ### AssetRepository.update_assignment -/

/-- Effect on one assignmenthistory row of the UPDATE closing the active
assignment of (asset, old holder): stamp ReturnedOn with today and clear
IsActive on every matching active row. -/
def closeActiveRow (assetId oldEmp : String) (today : Nat) (r : HistoryRow) : HistoryRow :=
  if r.assetId == assetId && r.employeeId == oldEmp && r.isActive then
    { r with returnedOn := some today, isActive := false }
  else r

/-- First half of the holder-change branch of update_assignment: when the
holder changes and the old holder is non-empty, close its active assignment
records. -/
def closeOldStep (db : DB) (today : Nat) (assetId : String)
    (oldEmp newEmp : Option String) : DB :=
  if oldEmp != newEmp && isTruthy oldEmp then
    { db with history := db.history.map (closeActiveRow assetId (oldEmp.getD "") today) }
  else db

/-- Second half of the holder-change branch: when the holder changes and the
new holder is non-empty, append a fresh active assignment record dated today
with the display name resolved now. -/
def openNewStep (db : DB) (today : Nat) (assetId : String)
    (oldEmp newEmp : Option String) : DB :=
  if oldEmp != newEmp && isTruthy newEmp then
    let emp := newEmp.getD ""
    { db with history := db.history ++
        [{ assetId := assetId, employeeId := emp, employeeName := resolveEmpName db emp,
           assignedOn := today, returnedOn := none, isActive := true }] }
  else db

/-- Unconditional final write of update_assignment on the asset row:
AssignedTo is set to new_employee_id or None and RepairStatus to the request
value. -/
def updateAssetRow (assetId : String) (newEmp : Option String) (repairStatus : Bool)
    (a : Asset) : Asset :=
  if a.assetId == assetId then
    { a with assignedTo := pyOrNone newEmp, repairStatus := repairStatus }
  else a

/-- Foreign-key validation fired when the transaction stores an employee
reference: both assignmenthistory.EmployeeId and assetdata.AssignedTo
reference peopledata.NameId (models.py lines 100-102 and 148; init_db.py
lines 110 and 149), so committing an employee id that is absent from
peopledata raises IntegrityError.  The stored value is new_employee_id or
None, hence the check is on the normalized value; NULL is always allowed. -/
def fkEmployeeOk (db : DB) (emp : Option String) : Bool :=
  match pyOrNone emp with
  | none => true
  | some v => (findPerson db v).isSome

/-- AssetRepository.update_assignment (asset_repository.py lines 342-392):
look up the asset (raising when unknown), close the old active assignment and
open the new one when the holder changes, then unconditionally overwrite the
asset row fields, and commit.  The commit validates the enforced foreign keys
on the written employee reference (history insert and asset-row update): a
non-empty new holder absent from peopledata raises IntegrityError and the
except-handler rolls the whole transaction back. -/
def AssetRepository.update_assignment (db : DB) (today : Nat) (assetId : String)
    (newEmp : Option String) (repairStatus : Bool) : Except String DB :=
  match findAsset db assetId with
  | none => Except.error ("Asset " ++ assetId ++ " not found")
  | some asset =>
    let oldEmp := asset.assignedTo
    let db1 := closeOldStep db today assetId oldEmp newEmp
    let db2 := openNewStep db1 today assetId oldEmp newEmp
    if fkEmployeeOk db newEmp then
      Except.ok { db2 with assets := db2.assets.map (updateAssetRow assetId newEmp repairStatus) }
    else
      Except.error "IntegrityError: a foreign key constraint fails, employee reference not in peopledata"

/-- Store visible after update_assignment returns or raises (commit or
rollback). -/
def updateCommitted (db : DB) (today : Nat) (assetId : String)
    (newEmp : Option String) (repairStatus : Bool) : DB :=
  match AssetRepository.update_assignment db today assetId newEmp repairStatus with
  | Except.ok db2 => db2
  | Except.error _ => db

/-- Intermediate store of update_assignment between the close of the old
assignment record and the insert of the new one (none when the call fails
before reaching that point). -/
def updateMidState (db : DB) (today : Nat) (assetId : String)
    (newEmp : Option String) : Option DB :=
  match findAsset db assetId with
  | none => none
  | some asset => some (closeOldStep db today assetId asset.assignedTo newEmp)

/-! ### Module-level repair functions

In asset_repository.py the three repair functions are written at column 0
after the class body (lines 433-553); they are plain module functions
referring to an explicit self-like store argument.  Their logic is embedded
here; their (non-)membership in the class is modelled separately for the
route layer. -/

/-- TempAssetId value stored in the repair record:
temp_asset_id if temp_asset_id else asset_id. -/
def effTempAssetId (assetId : String) (tempAssetId : Option String) : String :=
  if isTruthy tempAssetId then tempAssetId.getD "" else assetId

/-- INSERT into repairstatustracker.  models.py declares
CheckConstraint AssetId <> TempAssetId (chk_assetid_tempid_not_same) on this
table, so a row whose loaner reference equals its asset reference is rejected
by the store. -/
def insertRepairRow (db : DB) (r : RepairRow) : Except String DB :=
  if r.assetId == r.tempAssetId then
    Except.error "IntegrityError: check constraint chk_assetid_tempid_not_same is violated"
  else Except.ok { db with repairs := db.repairs ++ [r] }

/-- asset.RepairStatus = True on the asset row. -/
def markUnderRepair (assetId : String) (a : Asset) : Asset :=
  if a.assetId == assetId then { a with repairStatus := true } else a

/-- temp_asset.IsTempAsset = True; temp_asset.AssignedTo = current employee. -/
def markTempAssigned (tempAssetId : String) (emp : Option String) (a : Asset) : Asset :=
  if a.assetId == tempAssetId then { a with isTempAsset := true, assignedTo := emp } else a

/-- Module-level start_repair (asset_repository.py lines 452-503): mark the
asset under repair; when the asset has a holder and a loaner id is supplied,
require the loaner to exist, mark it in use, assign it to the holder and open
an assignment record for it; finally insert one open repair record whose
loaner reference defaults to the asset itself.  There is no check for an
already-open repair record. -/
def start_repair (db : DB) (now : Nat) (assetId repairDetails : String)
    (tempAssetId : Option String) : Except String DB :=
  match findAsset db assetId with
  | none => Except.error ("Asset " ++ assetId ++ " not found")
  | some asset =>
    let currentEmp := asset.assignedTo
    let db1 : DB := { db with assets := db.assets.map (markUnderRepair assetId) }
    let afterLoaner : Except String DB :=
      if isTruthy currentEmp && isTruthy tempAssetId then
        let tid := tempAssetId.getD ""
        match findAsset db1 tid with
        | none => Except.error ("Temp asset " ++ tid ++ " not found")
        | some _ =>
          let emp := currentEmp.getD ""
          let db2 : DB := { db1 with assets := db1.assets.map (markTempAssigned tid currentEmp) }
          Except.ok { db2 with history := db2.history ++
              [{ assetId := tid, employeeId := emp, employeeName := resolveEmpName db2 emp,
                 assignedOn := now, returnedOn := none, isActive := true }] }
      else Except.ok db1
    match afterLoaner with
    | Except.error e => Except.error e
    | Except.ok db3 =>
      insertRepairRow db3
        { assetId := assetId, tempAssetId := effTempAssetId assetId tempAssetId,
          repairDetails := repairDetails, repairStart := now, repairEnd := none }

/-- Store visible after start_repair returns or raises. -/
def startRepairCommitted (db : DB) (now : Nat) (assetId repairDetails : String)
    (tempAssetId : Option String) : DB :=
  match start_repair db now assetId repairDetails tempAssetId with
  | Except.ok db2 => db2
  | Except.error _ => db

/-- Module-level get_active_repair (lines 433-450): first repair record of
the asset with a null end timestamp. -/
def get_active_repair (db : DB) (assetId : String) : Option RepairRow :=
  db.repairs.find? (fun r => r.assetId == assetId && r.repairEnd == none)

/-- UPDATE closing the active assignment records of the returned loaner. -/
def closeLoanerRow (tempAssetId : String) (today : Nat) (r : HistoryRow) : HistoryRow :=
  if r.assetId == tempAssetId && r.isActive then
    { r with returnedOn := some today, isActive := false }
  else r

/-- temp_asset.IsTempAsset = False; temp_asset.AssignedTo = None. -/
def resetLoaner (tempAssetId : String) (a : Asset) : Asset :=
  if a.assetId == tempAssetId then { a with isTempAsset := false, assignedTo := none } else a

/-- repair.RepairEndTimestamp = now on the fetched row, i.e. the first open
repair record of the asset. -/
def stampFirstOpen (assetId : String) (now : Nat) : List RepairRow → List RepairRow
  | [] => []
  | r :: rest =>
    if r.assetId == assetId && r.repairEnd == none then
      { r with repairEnd := some now } :: rest
    else r :: stampFirstOpen assetId now rest

/-- asset.RepairStatus = False on the asset row. -/
def clearRepairFlag (assetId : String) (a : Asset) : Asset :=
  if a.assetId == assetId then { a with repairStatus := false } else a

/-- Loaner-return block of end_repair (the body guarded by
repair.TempAssetId and repair.TempAssetId != asset_id): when the referenced
loaner exists and is flagged as a temp asset, close its active assignment
records (when it has a holder) and reset its flag and holder. -/
def loanerReturnStep (db : DB) (now : Nat) (assetId : String) (repair : RepairRow) : DB :=
  if repair.tempAssetId != "" && repair.tempAssetId != assetId then
    match findAsset db repair.tempAssetId with
    | some tempAsset =>
      if tempAsset.isTempAsset then
        let db0 : DB :=
          if isTruthy tempAsset.assignedTo then
            { db with history := db.history.map (closeLoanerRow repair.tempAssetId now) }
          else db
        { db0 with assets := db0.assets.map (resetLoaner repair.tempAssetId) }
      else db
    | none => db
  else db

/-- Module-level end_repair (asset_repository.py lines 505-553): require the
asset and an open repair record; run the loaner-return block; finally stamp
the repair end timestamp on the fetched open record and clear the asset
repair flag. -/
def end_repair (db : DB) (now : Nat) (assetId : String) : Except String DB :=
  match findAsset db assetId with
  | none => Except.error ("Asset " ++ assetId ++ " not found")
  | some _ =>
    match get_active_repair db assetId with
    | none => Except.error ("No active repair found for " ++ assetId)
    | some repair =>
      let db1 : DB := loanerReturnStep db now assetId repair
      let db2 : DB := { db1 with repairs := stampFirstOpen assetId now db1.repairs }
      Except.ok { db2 with assets := db2.assets.map (clearRepairFlag assetId) }

/-- Store visible after end_repair returns or raises. -/
def endRepairCommitted (db : DB) (now : Nat) (assetId : String) : DB :=
  match end_repair db now assetId with
  | Except.ok db2 => db2
  | Except.error _ => db

/-! ### Summary aggregation -/

/-- Grouping key of the summary query. -/
structure SummaryKey where
  assetType : String
  department : String
  brand : String
  model : String
deriving Repr, DecidableEq

/-- COALESCE(PeopleData.Department, the Not Assigned sentinel) after the
outer join on AssignedTo = NameId. -/
def summaryDept (people : List Employee) (a : Asset) : String :=
  match a.assignedTo with
  | none => "Not Assigned"
  | some emp =>
    match people.find? (fun p => p.nameId == emp) with
    | none => "Not Assigned"
    | some p => p.department.getD "Not Assigned"

/-- The four group-by keys of one asset. -/
def summaryKeyOf (people : List Employee) (a : Asset) : SummaryKey :=
  { assetType := a.assetType, department := summaryDept people a,
    brand := a.brand, model := a.model }

/-- GROUP BY accumulation: increment the count of an existing group or append
a new group with count one. -/
def bumpKey (k : SummaryKey) : List (SummaryKey × Nat) → List (SummaryKey × Nat)
  | [] => [(k, 1)]
  | (k2, c) :: rest => if k2 == k then (k2, c + 1) :: rest else (k2, c) :: bumpKey k rest

/-- Groups with counts over all assets, in order of first appearance (the SQL
GROUP BY output order is unspecified; this is one refinement of it). -/
def summaryGroups (db : DB) : List (SummaryKey × Nat) :=
  db.assets.foldl (fun acc a => bumpKey (summaryKeyOf db.people a) acc) []

/-- ORDER BY of the SQLAlchemy query in summary_repository.py: AssetType
only. -/
def summaryTypeLe (x y : SummaryKey × Nat) : Bool :=
  decide (x.1.assetType ≤ y.1.assetType)

/-- SummaryRepository.get_summary_data (summary_repository.py lines 20-57):
group all assets by (type, coalesced department, brand, model) with counts,
ordered by AssetType only. -/
def SummaryRepository.get_summary_data (db : DB) : List (SummaryKey × Nat) :=
  (summaryGroups db).mergeSort summaryTypeLe

/-- Lexicographic order on all four group keys, as in the ORDER BY clause of
DB_utils.get_summary_data. -/
def keyFullLeProp (k1 k2 : SummaryKey) : Prop :=
  k1.assetType < k2.assetType ∨ (k1.assetType = k2.assetType ∧
    (k1.department < k2.department ∨ (k1.department = k2.department ∧
      (k1.brand < k2.brand ∨ (k1.brand = k2.brand ∧ k1.model ≤ k2.model)))))

instance (k1 k2 : SummaryKey) : Decidable (keyFullLeProp k1 k2) := by
  unfold keyFullLeProp
  infer_instance

/-- Boolean comparator for ORDER BY AssetType, Department, Brand, Model. -/
def summaryFullLe (x y : SummaryKey × Nat) : Bool :=
  decide (keyFullLeProp x.1 y.1)

/-- DB_utils.get_summary_data (DB_utils.py lines 877-901): reads the
SummaryData view (same grouping) and orders by all four group keys. -/
def DB_utils.get_summary_data (db : DB) : List (SummaryKey × Nat) :=
  (summaryGroups db).mergeSort summaryFullLe

/-! ### The route layer and Python attribute resolution

assets.py builds repo = AssetRepository(db) and calls repo.<method>(...).
Attribute lookup on the instance searches the class body of AssetRepository
and then its base class BaseRepository; a miss raises AttributeError before
the store is touched. -/

/-- Names bound in the class body of AssetRepository
(asset_repository.py lines 18-431; everything indented under the class). -/
def assetRepositoryClassMethods : List String :=
  ["__init__", "get_types", "get_brands", "get_models", "get_models_by_brand",
   "get_brands_by_model", "create_brand_model", "get_all_specifications",
   "get_specifications_for_type", "get_all", "get_by_id", "get_assignment_history",
   "get_all_assignment_history", "create", "update_assignment", "delete_bulk",
   "get_available_temp_assets"]

/-- Names bound in the class body of BaseRepository (base.py lines 15-58). -/
def baseRepositoryClassMethods : List String :=
  ["__init__", "get_by_id", "get_all", "create", "update", "delete", "commit", "rollback"]

/-- Functions defined at module level (column 0) in asset_repository.py after
the class body ends. -/
def assetRepositoryModuleFunctions : List String :=
  ["get_active_repair", "start_repair", "end_repair"]

/-- Attribute resolution for an AssetRepository instance: class body, then
base class. -/
def repoHasAttr (name : String) : Bool :=
  assetRepositoryClassMethods.contains name || baseRepositoryClassMethods.contains name

/-- repo.<name>(...) inside a route handler: resolve the attribute first; on
a miss, AttributeError is raised before the store is read or written and the
endpoint surfaces an error (HTTP 500), the store unchanged. -/
def callRepoMethod (db : DB) (name : String) (body : DB → Except String DB) :
    DB × Except String String :=
  if repoHasAttr name then
    match body db with
    | Except.ok db2 => (db2, Except.ok "success")
    | Except.error e => (db, Except.error e)
  else
    (db, Except.error ("AttributeError: AssetRepository object has no attribute " ++ name))

/-- POST /repair/start (assets.py lines 260-274). -/
def routeStartRepair (db : DB) (now : Nat) (assetId repairDetails : String)
    (tempAssetId : Option String) : DB × Except String String :=
  callRepoMethod db "start_repair" (fun d => start_repair d now assetId repairDetails tempAssetId)

/-- POST /repair/end (assets.py lines 277-291). -/
def routeEndRepair (db : DB) (now : Nat) (assetId : String) : DB × Except String String :=
  callRepoMethod db "end_repair" (fun d => end_repair d now assetId)

/-- GET /repair-status/{asset_id} (assets.py lines 247-257), a read-only
endpoint. -/
def routeGetRepairStatus (db : DB) (assetId : String) : DB × Except String String :=
  callRepoMethod db "get_active_repair"
    (fun d => match get_active_repair d assetId with
      | _ => Except.ok d)

/-! ### Concrete stores used as witnesses and counterexamples -/

/-- Empty store with a missing counter row. -/
def emptyDB : DB :=
  { counter := none, assets := [], specs := [], history := [], repairs := [],
    people := [], specFields := [] }

/-- Minimal asset row template. -/
def mkAsset (assetId : String) (assignedTo : Option String) (repairStatus isTempAsset : Bool) :
    Asset :=
  { assetId := assetId, serialNo := "SN-" ++ assetId, assetType := "Laptop",
    brand := "Acme", model := "X1", dateOfPurchase := none, productCost := 0, gst := 0,
    warrantyExpiry := none, assignedTo := assignedTo, repairStatus := repairStatus,
    isTempAsset := isTempAsset }

/-- Store for the self-loaner repair record scenario: one asset held by E1,
no open repair. -/
def repairSelfDB : DB :=
  { emptyDB with
    counter := some 1001,
    assets := [mkAsset "AST_1001" (some "E1") false false],
    people := [{ nameId := "E1", name := some "Alice", department := some "IT",
                 email := none }] }

/-! ### C10 -/

/-- C10: in the SQLAlchemy implementation, get_active_repair, start_repair
and end_repair are module-level functions, not methods of AssetRepository, so
the repair endpoints fail with an attribute-resolution error before touching
the store: every repair-workflow request leaves the store unchanged and
surfaces an error. -/
theorem repair_routes_attribute_error (db : DB) (now : Nat)
    (assetId repairDetails : String) (tempAssetId : Option String) :
    (∀ name ∈ assetRepositoryModuleFunctions, repoHasAttr name = false) ∧
    routeStartRepair db now assetId repairDetails tempAssetId =
      (db, Except.error ("AttributeError: AssetRepository object has no attribute "
        ++ "start_repair")) ∧
    routeEndRepair db now assetId =
      (db, Except.error ("AttributeError: AssetRepository object has no attribute "
        ++ "end_repair")) ∧
    routeGetRepairStatus db assetId =
      (db, Except.error ("AttributeError: AssetRepository object has no attribute "
        ++ "get_active_repair")) := by
  have h1 : repoHasAttr "start_repair" = false := by decide
  have h2 : repoHasAttr "end_repair" = false := by decide
  have h3 : repoHasAttr "get_active_repair" = false := by decide
  refine ⟨?_, ?_, ?_, ?_⟩
  · intro name hname
    simp only [assetRepositoryModuleFunctions, List.mem_cons, List.mem_singleton,
      List.not_mem_nil, or_false] at hname
    rcases hname with rfl | rfl | rfl
    · exact h3
    · exact h1
    · exact h2
  · simp [routeStartRepair, callRepoMethod, h1]
  · simp [routeEndRepair, callRepoMethod, h2]
  · simp [routeGetRepairStatus, callRepoMethod, h3]

/-! ### C8 -/

/-- C8: the spec and the start_repair code intend a no-loaner repair record
to reference the asset itself (TempAssetId defaults to asset_id), but the
schema declares CheckConstraint AssetId <> TempAssetId, so the insert is
rejected: start_repair with no loaner raises and rolls back instead of
succeeding.  Evaluated at the concrete failing input. -/
theorem start_repair_self_sentinel_rejected :
    effTempAssetId "AST_1001" none = "AST_1001" ∧
    start_repair repairSelfDB 3 "AST_1001" "screen crack" none =
      Except.error "IntegrityError: check constraint chk_assetid_tempid_not_same is violated" ∧
    startRepairCommitted repairSelfDB 3 "AST_1001" "screen crack" none = repairSelfDB := by
  refine ⟨rfl, by rfl, by decide⟩

/-! ### C3: identifier generation -/

theorem runGenSeq_id_format : ∀ (calls : List GenCall) (c : Option Nat),
    ∀ p ∈ runGenSeq c calls, p.1 = "AST_" ++ Nat.repr p.2 := by
  intro calls
  induction calls with
  | nil => intro c p hp; simp [runGenSeq] at hp
  | cons k rest ih =>
    intro c p hp
    cases k with
    | orm =>
      simp only [runGenSeq, List.mem_cons] at hp
      rcases hp with rfl | hp
      · rfl
      · exact ih _ p hp
    | legacy =>
      cases c with
      | none => exact ih _ p hp
      | some v =>
        simp only [runGenSeq, generate_asset_id, List.mem_cons] at hp
        rcases hp with rfl | hp
        · rfl
        · exact ih _ p hp

theorem runGenSeq_lower_bound : ∀ (calls : List GenCall) (c : Option Nat),
    ∀ p ∈ runGenSeq c calls, c.getD 1000 < p.2 := by
  intro calls
  induction calls with
  | nil => intro c p hp; simp [runGenSeq] at hp
  | cons k rest ih =>
    intro c p hp
    cases k with
    | orm =>
      simp only [runGenSeq, List.mem_cons] at hp
      rcases hp with rfl | hp
      · cases c <;> simp [ormNextId]
      · have h2 := ih (some (ormNextId c).2) p hp
        simp only [Option.getD_some] at h2
        have h3 : c.getD 1000 < (ormNextId c).2 := by
          cases c <;> simp [ormNextId]
        omega
    | legacy =>
      cases c with
      | none => exact ih _ p hp
      | some v =>
        simp only [runGenSeq, generate_asset_id, List.mem_cons] at hp
        rcases hp with rfl | hp
        · simp
        · have h2 := ih (some (v + 1)) p hp
          simp only [Option.getD_some] at h2
          simp only [Option.getD_some]
          omega

theorem runGenSeq_pairwise_lt : ∀ (calls : List GenCall) (c : Option Nat),
    (runGenSeq c calls).Pairwise (fun p q => p.2 < q.2) := by
  intro calls
  induction calls with
  | nil => intro c; simp [runGenSeq]
  | cons k rest ih =>
    intro c
    cases k with
    | orm =>
      simp only [runGenSeq]
      rw [List.pairwise_cons]
      refine ⟨?_, ih _⟩
      intro q hq
      exact runGenSeq_lower_bound rest (some (ormNextId c).2) q hq
    | legacy =>
      cases c with
      | none => exact ih _
      | some v =>
        simp only [runGenSeq, generate_asset_id]
        rw [List.pairwise_cons]
        refine ⟨?_, ih _⟩
        intro q hq
        exact runGenSeq_lower_bound rest (some (v + 1)) q hq

/-- C3 counterexample: DB_utils.generate_asset_id does not lazily initialize
a missing counter row; it raises a TypeError (result is None) and issues
nothing, contradicting the claim that a missing counter row is initialized to
the floor 1000 before the first increment in this code path. -/
theorem generate_asset_id_missing_counter_raises :
    generate_asset_id none = Except.error "TypeError: NoneType object is not subscriptable" ∧
    runGenSeq none [GenCall.legacy] = [] ∧
    (∀ v : Nat, generate_asset_id none ≠ Except.ok ("AST_" ++ Nat.repr v, v)) := by
  refine ⟨rfl, rfl, ?_⟩
  intro v h
  exact Except.noConfusion h

/-- C3 amended: across every sequence of generator calls (the step embedded
in AssetRepository.create and DB_utils.generate_asset_id, the latter issuing
nothing when the counter row is missing), the underlying counter values are
strictly increasing in issuance order, the returned identifiers are pairwise
distinct, and from a store with no counter row the ORM step lazily
initializes the counter at the floor 1000 so the first issued identifier is
AST_1001. -/
theorem generated_ids_distinct_increasing (c : Option Nat) (calls : List GenCall) :
    (runGenSeq c calls).Pairwise (fun p q => p.2 < q.2) ∧
    (runGenSeq c calls).Pairwise (fun p q => p.1 ≠ q.1) ∧
    (runGenSeq none (GenCall.orm :: calls)).head? = some ("AST_1001", 1001) := by
  refine ⟨runGenSeq_pairwise_lt calls c, ?_, rfl⟩
  apply (runGenSeq_pairwise_lt calls c).imp_of_mem
  intro p q hp hq hlt heq
  have hp1 := runGenSeq_id_format calls c p hp
  have hq1 := runGenSeq_id_format calls c q hq
  rw [hp1, hq1] at heq
  have := astId_inj _ _ heq
  omega

/-! ### C2: atomicity of createAsset -/

/-- Typical creation request used to instantiate the atomicity theorem. -/
def exCreateInput : CreateInput :=
  { serialNumber := "SN-1", assetType := "Laptop", brand := "Acme", model := "X1",
    purchaseDate := some "2024-01-31", warrantyExpiry := none, purchaseCost := 1000,
    gstPaid := 180, assignedTo := some "E1", repairStatus := false,
    specifications := [("ram", "16GB"), ("cpu", "")] }

/-- C2: createAsset is atomic.  A failure injected at any of the four steps
(id generation, asset insert, specification inserts, initial assignment
insert) makes the call raise; the committed store is the pre-call store for
every raising run (injected or constraint failure), so no asset row,
specification row or assignment record for the would-be identifier persists
when none existed before. -/
theorem create_atomic_rollback (db : DB) (today : Nat) (inp : CreateInput)
    (stage : CreateStage) :
    (∃ e, AssetRepository.create db today inp (some stage) = Except.error e) ∧
    createCommitted db today inp (some stage) = db ∧
    (∀ failAt e, AssetRepository.create db today inp failAt = Except.error e →
       createCommitted db today inp failAt = db) ∧
    (noTraceOf db (wouldBeAssetId db) →
       noTraceOf (createCommitted db today inp (some stage)) (wouldBeAssetId db)) := by
  have herr : ∃ e, AssetRepository.create db today inp (some stage) = Except.error e := by
    cases stage <;>
      · unfold AssetRepository.create
        split_ifs <;>
          first
          | exact ⟨_, rfl⟩
          | (simp_all; try (split_ifs <;> exact ⟨_, rfl⟩))
  obtain ⟨e, he⟩ := herr
  have hcom : createCommitted db today inp (some stage) = db := by
    simp [createCommitted, he]
  refine ⟨⟨e, he⟩, hcom, ?_, ?_⟩
  · intro failAt e2 he2
    simp [createCommitted, he2]
  · intro h
    rwa [hcom]

theorem create_atomic_rollback_witness :
    noTraceOf emptyDB (wouldBeAssetId emptyDB) ∧
    noTraceOf (createCommitted emptyDB 0 exCreateInput (some CreateStage.specInserts))
      (wouldBeAssetId emptyDB) ∧
    createCommitted emptyDB 0 exCreateInput (some CreateStage.specInserts) = emptyDB := by
  have h := create_atomic_rollback emptyDB 0 exCreateInput CreateStage.specInserts
  exact ⟨by decide, h.2.2.2 (by decide), h.2.1⟩

/-! ### C1: at most one active assignment record per asset -/

/-- AssignedTo of the asset row, none when the asset is unknown. -/
def currentHolder (db : DB) (assetId : String) : Option String :=
  match findAsset db assetId with
  | some a => a.assignedTo
  | none => none

theorem countP_close_map_zero (l : List HistoryRow) (assetId o : String) (today : Nat)
    (h : ∀ r ∈ l, r.assetId = assetId → r.isActive = true → r.employeeId = o) :
    (l.map (closeActiveRow assetId o today)).countP
      (fun r => r.assetId == assetId && r.isActive) = 0 := by
  rw [List.countP_map, List.countP_eq_zero]
  intro r hr
  simp only [Function.comp_apply]
  unfold closeActiveRow
  by_cases h1 : (r.assetId == assetId && r.employeeId == o && r.isActive) = true
  · simp [h1]
  · rw [if_neg h1]
    intro hcon
    simp only [Bool.and_eq_true, beq_iff_eq] at hcon h1
    exact h1 ⟨⟨hcon.1, h r hr hcon.1 hcon.2⟩, hcon.2⟩

theorem countActive_no_active_zero (db : DB) (assetId : String)
    (h : ∀ r ∈ db.history, ¬(r.assetId = assetId ∧ r.isActive = true)) :
    countActiveFor db assetId = 0 := by
  rw [countActiveFor, List.countP_eq_zero]
  intro r hr hcon
  simp only [Bool.and_eq_true, beq_iff_eq] at hcon
  exact h r hr hcon

theorem closeOldStep_count (db : DB) (today : Nat) (assetId : String) (asset : Asset)
    (newEmp : Option String)
    (hfind : findAsset db assetId = some asset)
    (hcount : countActiveFor db assetId ≤ 1)
    (hcons : ∀ r ∈ db.history, r.assetId = assetId → r.isActive = true →
       currentHolder db assetId = some r.employeeId ∧ r.employeeId ≠ "") :
    countActiveFor (closeOldStep db today assetId asset.assignedTo newEmp) assetId ≤ 1 ∧
    (asset.assignedTo ≠ newEmp →
      countActiveFor (closeOldStep db today assetId asset.assignedTo newEmp) assetId = 0) := by
  have hcur : currentHolder db assetId = asset.assignedTo := by
    simp [currentHolder, hfind]
  by_cases hd : asset.assignedTo = newEmp
  · have hstep : closeOldStep db today assetId asset.assignedTo newEmp = db := by
      simp [closeOldStep, hd]
    rw [hstep]
    exact ⟨hcount, fun h => absurd hd h⟩
  · by_cases ht : isTruthy asset.assignedTo = true
    · have hcond : (asset.assignedTo != newEmp && isTruthy asset.assignedTo) = true := by
        simp [bne, hd, ht]
      have hzero : countActiveFor
          (closeOldStep db today assetId asset.assignedTo newEmp) assetId = 0 := by
        unfold closeOldStep
        rw [if_pos hcond]
        unfold countActiveFor
        simp only
        apply countP_close_map_zero
        intro r hr h1 h2
        have h3 := hcons r hr h1 h2
        rw [hcur] at h3
        obtain ⟨h4, _⟩ := h3
        rw [h4]
        rfl
      exact ⟨by omega, fun _ => hzero⟩
    · have hcond : (asset.assignedTo != newEmp && isTruthy asset.assignedTo) = false := by
        simp only [Bool.and_eq_false_iff]
        right
        simpa using ht
      have hstep : closeOldStep db today assetId asset.assignedTo newEmp = db := by
        unfold closeOldStep
        rw [hcond]
        simp
      have hzero : countActiveFor db assetId = 0 := by
        apply countActive_no_active_zero
        intro r hr ⟨h1, h2⟩
        have h3 := hcons r hr h1 h2
        rw [hcur] at h3
        obtain ⟨h4, h5⟩ := h3
        apply ht
        rw [h4]
        simpa [isTruthy] using h5
      rw [hstep]
      exact ⟨by omega, fun _ => hzero⟩

theorem openNewStep_count (db1 : DB) (today : Nat) (assetId : String)
    (oldEmp newEmp : Option String) :
    countActiveFor (openNewStep db1 today assetId oldEmp newEmp) assetId ≤
      countActiveFor db1 assetId + 1 := by
  unfold openNewStep
  by_cases hcond : (oldEmp != newEmp && isTruthy newEmp) = true
  · rw [if_pos hcond]
    unfold countActiveFor
    simp only [List.countP_append]
    have : List.countP (fun r => r.assetId == assetId && r.isActive)
        [({ assetId := assetId, employeeId := newEmp.getD "",
            employeeName := resolveEmpName db1 (newEmp.getD ""), assignedOn := today,
            returnedOn := none, isActive := true } : HistoryRow)] ≤ 1 := by
      simp [List.countP_cons]
    omega
  · rw [if_neg hcond]
    omega

/-- C1 counterexample: the claim fails as stated.  The store satisfies the
declared schema (E1, E2 and E3 all exist in peopledata, so no foreign key
fires) and the precondition holds: one active record for AST_1001, held by
employee E2 while the asset row names E1 as holder.  Reassigning to E3 closes
only records of E1, then opens a record for E3, leaving two active records
after a successful call. -/
def crossDB : DB :=
  { emptyDB with
    assets := [mkAsset "AST_1001" (some "E1") false false],
    history := [{ assetId := "AST_1001", employeeId := "E2", employeeName := some "Bob",
                  assignedOn := 0, returnedOn := none, isActive := true }],
    people := [{ nameId := "E1", name := some "Alice", department := some "IT",
                 email := none },
               { nameId := "E2", name := some "Bob", department := some "HR",
                 email := none },
               { nameId := "E3", name := some "Carol", department := some "IT",
                 email := none }] }

theorem reassign_two_active_counterexample :
    countActiveFor crossDB "AST_1001" = 1 ∧
    (AssetRepository.update_assignment crossDB 5 "AST_1001" (some "E3") false).isOk = true ∧
    countActiveFor (updateCommitted crossDB 5 "AST_1001" (some "E3") false) "AST_1001" = 2 := by
  exact ⟨rfl, rfl, rfl⟩

/-- C1 amended: when additionally every active assignment record of the asset
belongs to the asset row's current (non-empty) holder, every reassign call
preserves the invariant: at most one active record after the call, whether it
succeeds or raises, and at the intermediate state between the close of the
old record and the insert of the new one (close-before-open ordering). -/
theorem reassign_preserves_single_active (db : DB) (today : Nat) (assetId : String)
    (newEmp : Option String) (repairStatus : Bool)
    (hcount : countActiveFor db assetId ≤ 1)
    (hcons : ∀ r ∈ db.history, r.assetId = assetId → r.isActive = true →
       currentHolder db assetId = some r.employeeId ∧ r.employeeId ≠ "") :
    countActiveFor (updateCommitted db today assetId newEmp repairStatus) assetId ≤ 1 ∧
    (∀ mid, updateMidState db today assetId newEmp = some mid →
       countActiveFor mid assetId ≤ 1) := by
  cases hfind : findAsset db assetId with
  | none =>
    constructor
    · have : updateCommitted db today assetId newEmp repairStatus = db := by
        simp [updateCommitted, AssetRepository.update_assignment, hfind]
      rw [this]; exact hcount
    · intro mid hmid
      simp [updateMidState, hfind] at hmid
  | some asset =>
    have hstep := closeOldStep_count db today assetId asset newEmp hfind hcount hcons
    have hmid1 : countActiveFor (closeOldStep db today assetId asset.assignedTo newEmp)
        assetId ≤ 1 := hstep.1
    constructor
    · by_cases hfk : fkEmployeeOk db newEmp = true
      case neg =>
        have hcommit : updateCommitted db today assetId newEmp repairStatus = db := by
          rw [Bool.not_eq_true] at hfk
          simp [updateCommitted, AssetRepository.update_assignment, hfind, hfk]
        rw [hcommit]
        exact hcount
      have hcommit : updateCommitted db today assetId newEmp repairStatus =
          { openNewStep (closeOldStep db today assetId asset.assignedTo newEmp) today
              assetId asset.assignedTo newEmp with
            assets := (openNewStep (closeOldStep db today assetId asset.assignedTo newEmp)
              today assetId asset.assignedTo newEmp).assets.map
                (updateAssetRow assetId newEmp repairStatus) } := by
        simp [updateCommitted, AssetRepository.update_assignment, hfind, hfk]
      rw [hcommit]
      have hhist : countActiveFor
          ({ openNewStep (closeOldStep db today assetId asset.assignedTo newEmp) today
              assetId asset.assignedTo newEmp with
             assets := (openNewStep (closeOldStep db today assetId asset.assignedTo newEmp)
               today assetId asset.assignedTo newEmp).assets.map
                 (updateAssetRow assetId newEmp repairStatus) }) assetId =
          countActiveFor (openNewStep (closeOldStep db today assetId asset.assignedTo newEmp)
            today assetId asset.assignedTo newEmp) assetId := rfl
      rw [hhist]
      by_cases hd : asset.assignedTo = newEmp
      · have hopen : openNewStep (closeOldStep db today assetId asset.assignedTo newEmp)
            today assetId asset.assignedTo newEmp =
            closeOldStep db today assetId asset.assignedTo newEmp := by
          unfold openNewStep
          rw [if_neg]
          simp [bne, hd]
        rw [hopen]
        exact hmid1
      · have hzero := hstep.2 hd
        have := openNewStep_count (closeOldStep db today assetId asset.assignedTo newEmp)
          today assetId asset.assignedTo newEmp
        omega
    · intro mid hmid
      have : mid = closeOldStep db today assetId asset.assignedTo newEmp := by
        simp [updateMidState, hfind] at hmid
        exact hmid.symm
      rw [this]
      exact hmid1

/-- Schema-consistent store for the witnesses: one asset held by E1 with
exactly one active record, for E1; both E1 and E2 exist in peopledata. -/
def consistentDB : DB :=
  { emptyDB with
    assets := [mkAsset "AST_1001" (some "E1") false false],
    history := [{ assetId := "AST_1001", employeeId := "E1", employeeName := some "Alice",
                  assignedOn := 0, returnedOn := none, isActive := true }],
    people := [{ nameId := "E1", name := some "Alice", department := some "IT",
                 email := none },
               { nameId := "E2", name := some "Bob", department := some "HR",
                 email := none }] }

theorem reassign_preserves_single_active_witness :
    countActiveFor (updateCommitted consistentDB 7 "AST_1001" (some "E2") false)
      "AST_1001" ≤ 1 ∧
    countActiveFor ((updateMidState consistentDB 7 "AST_1001" (some "E2")).getD emptyDB)
      "AST_1001" ≤ 1 := by
  have h := reassign_preserves_single_active consistentDB 7 "AST_1001" (some "E2") false
    (by decide) (by decide)
  exact ⟨h.1, h.2 _ (by rfl)⟩

/-! ### C4: start_repair and already-open repairs -/

theorem find?_assetId_map (l : List Asset) (aid : String) (f : Asset → Asset)
    (hf : ∀ a, (f a).assetId = a.assetId) :
    (l.map f).find? (fun a => a.assetId == aid) = (l.find? (fun a => a.assetId == aid)).map f := by
  induction l with
  | nil => rfl
  | cons a t ih =>
    by_cases h : (a.assetId == aid) = true
    · simp [List.find?_cons, hf a, h]
    · simp only [List.map_cons, List.find?_cons, hf a]
      rw [Bool.not_eq_true] at h
      simp [h, ih]

theorem markUnderRepair_assetId (assetId : String) (a : Asset) :
    (markUnderRepair assetId a).assetId = a.assetId := by
  unfold markUnderRepair
  split <;> rfl

/-- Store with an already-open repair for AST_1001 (loaner AST_3003 still
out), plus a fresh eligible loaner AST_2002. -/
def doubleRepairDB : DB :=
  { emptyDB with
    assets := [mkAsset "AST_1001" (some "E1") true false,
               mkAsset "AST_2002" none false false,
               mkAsset "AST_3003" none false true],
    people := [{ nameId := "E1", name := some "Alice", department := some "IT",
                 email := none }],
    repairs := [{ assetId := "AST_1001", tempAssetId := "AST_3003",
                  repairDetails := "first repair", repairStart := 1, repairEnd := none }] }

/-- C4 counterexample: the claim fails as stated.  AST_1001 already has an
open repair record, yet start_repair succeeds (no ConflictState, store
changed) and a second open repair record is created. -/
theorem start_repair_conflict_counterexample :
    countOpenRepairs doubleRepairDB "AST_1001" = 1 ∧
    (start_repair doubleRepairDB 5 "AST_1001" "second repair" (some "AST_2002")).isOk = true ∧
    countOpenRepairs (startRepairCommitted doubleRepairDB 5 "AST_1001" "second repair"
      (some "AST_2002")) "AST_1001" = 2 := by
  exact ⟨rfl, rfl, rfl⟩

/-- C4 amended: start_repair performs no open-repair conflict check.
Whenever the asset exists, the loaner (when loaner logic is triggered)
exists, and the inserted record satisfies the asset-loaner check constraint,
the call succeeds regardless of existing open repair records, appending one
more open repair record, so the open-repair count of the asset grows by
one. -/
theorem start_repair_no_conflict_check (db : DB) (now : Nat)
    (assetId repairDetails : String) (tempAssetId : Option String) (asset : Asset)
    (hfind : findAsset db assetId = some asset)
    (hloaner : (isTruthy asset.assignedTo && isTruthy tempAssetId) = true →
       (findAsset db (tempAssetId.getD "")).isSome = true)
    (hconstraint : effTempAssetId assetId tempAssetId ≠ assetId) :
    ∃ db2, start_repair db now assetId repairDetails tempAssetId = Except.ok db2 ∧
      countOpenRepairs db2 assetId = countOpenRepairs db assetId + 1 ∧
      ({ assetId := assetId, tempAssetId := effTempAssetId assetId tempAssetId,
         repairDetails := repairDetails, repairStart := now, repairEnd := none } : RepairRow)
        ∈ db2.repairs := by
  have hbeq : (assetId == effTempAssetId assetId tempAssetId) = false := by
    simp only [beq_eq_false_iff_ne, ne_eq]
    exact fun h => hconstraint h.symm
  unfold start_repair
  rw [hfind]
  simp only
  by_cases hcond : (isTruthy asset.assignedTo && isTruthy tempAssetId) = true
  · have hsome := hloaner hcond
    set db1 : DB := { db with assets := db.assets.map (markUnderRepair assetId) } with hdb1
    have hmapfind : findAsset db1 (tempAssetId.getD "") =
        (findAsset db (tempAssetId.getD "")).map (markUnderRepair assetId) := by
      unfold findAsset
      exact find?_assetId_map db.assets (tempAssetId.getD "") (markUnderRepair assetId)
        (markUnderRepair_assetId assetId)
    obtain ⟨t, ht⟩ : ∃ t, findAsset db (tempAssetId.getD "") = some t := by
      cases h : findAsset db (tempAssetId.getD "")
      · rw [h] at hsome; simp at hsome
      · exact ⟨_, rfl⟩
    rw [hcond]
    simp only [if_true, hmapfind, ht, Option.map_some]
    unfold insertRepairRow
    simp only [hbeq, Bool.false_eq_true, if_false]
    refine ⟨_, rfl, ?_, ?_⟩
    · unfold countOpenRepairs
      simp only [List.countP_append]
      have h1 : List.countP (fun r => r.assetId == assetId && r.repairEnd == none)
          [({ assetId := assetId, tempAssetId := effTempAssetId assetId tempAssetId,
              repairDetails := repairDetails, repairStart := now,
              repairEnd := none } : RepairRow)] = 1 := by
        simp [List.countP_cons]
      rw [h1]
    · simp
  · rw [Bool.not_eq_true] at hcond
    rw [hcond]
    simp only [Bool.false_eq_true, if_false]
    unfold insertRepairRow
    simp only [hbeq, Bool.false_eq_true, if_false]
    refine ⟨_, rfl, ?_, ?_⟩
    · unfold countOpenRepairs
      simp only [List.countP_append]
      have h1 : List.countP (fun r => r.assetId == assetId && r.repairEnd == none)
          [({ assetId := assetId, tempAssetId := effTempAssetId assetId tempAssetId,
              repairDetails := repairDetails, repairStart := now,
              repairEnd := none } : RepairRow)] = 1 := by
        simp [List.countP_cons]
      rw [h1]
    · simp

theorem start_repair_no_conflict_check_witness :
    start_repair doubleRepairDB 5 "AST_1001" "second repair" (some "AST_2002") =
      Except.ok (startRepairCommitted doubleRepairDB 5 "AST_1001" "second repair"
        (some "AST_2002")) ∧
    countOpenRepairs (startRepairCommitted doubleRepairDB 5 "AST_1001" "second repair"
        (some "AST_2002")) "AST_1001" = countOpenRepairs doubleRepairDB "AST_1001" + 1 ∧
    ({ assetId := "AST_1001", tempAssetId := effTempAssetId "AST_1001" (some "AST_2002"),
       repairDetails := "second repair", repairStart := 5,
       repairEnd := none } : RepairRow) ∈ (startRepairCommitted doubleRepairDB 5 "AST_1001"
         "second repair" (some "AST_2002")).repairs := by
  obtain ⟨db2, h1, h2, h3⟩ := start_repair_no_conflict_check doubleRepairDB 5 "AST_1001"
    "second repair" (some "AST_2002") (mkAsset "AST_1001" (some "E1") true false)
    (by decide) (by decide) (by decide)
  have hc : startRepairCommitted doubleRepairDB 5 "AST_1001" "second repair"
      (some "AST_2002") = db2 := by
    simp only [startRepairCommitted, h1]
  rw [hc]
  exact ⟨h1, h2, h3⟩

/-! ### C5: end_repair on an asset with no open repair -/

theorem loanerReturnStep_repairs (db : DB) (now : Nat) (assetId : String)
    (repair : RepairRow) : (loanerReturnStep db now assetId repair).repairs = db.repairs := by
  unfold loanerReturnStep
  split
  · split
    · split
      · split <;> rfl
      · rfl
    · rfl
  · rfl

theorem end_repair_ok_repairs (db : DB) (now : Nat) (assetId : String) (db2 : DB)
    (h : end_repair db now assetId = Except.ok db2) :
    db2.repairs = stampFirstOpen assetId now db.repairs ∧
    ∃ repair, get_active_repair db assetId = some repair := by
  unfold end_repair at h
  cases hfa : findAsset db assetId with
  | none => rw [hfa] at h; exact absurd h (by simp)
  | some a =>
    rw [hfa] at h
    cases hrep : get_active_repair db assetId with
    | none => rw [hrep] at h; exact absurd h (by simp)
    | some repair =>
      rw [hrep] at h
      simp only [Except.ok.injEq] at h
      refine ⟨?_, repair, rfl⟩
      rw [← h]
      simp only
      rw [loanerReturnStep_repairs]

theorem stampFirstOpen_countP (assetId : String) (now : Nat) :
    ∀ l : List RepairRow,
      0 < l.countP (fun r => r.assetId == assetId && r.repairEnd == none) →
      (stampFirstOpen assetId now l).countP (fun r => r.assetId == assetId && r.repairEnd == none)
        = l.countP (fun r => r.assetId == assetId && r.repairEnd == none) - 1 := by
  intro l
  induction l with
  | nil => intro h; simp at h
  | cons x rest ih =>
    intro h
    by_cases hx : (x.assetId == assetId && x.repairEnd == none) = true
    · unfold stampFirstOpen
      rw [if_pos hx]
      have hstamped : (({ x with repairEnd := some now } : RepairRow).assetId == assetId &&
          ({ x with repairEnd := some now } : RepairRow).repairEnd == none) = false := by
        simp
      rw [List.countP_cons, List.countP_cons, hstamped, hx]
      simp
    · unfold stampFirstOpen
      rw [if_neg hx]
      rw [Bool.not_eq_true] at hx
      rw [List.countP_cons] at h
      rw [hx] at h
      simp only [Bool.false_eq_true, if_false, Nat.add_zero] at h
      rw [List.countP_cons, List.countP_cons, hx]
      simp only [Bool.false_eq_true, if_false, Nat.add_zero]
      rw [ih h]

theorem end_repair_err_of_no_open (db : DB) (now : Nat) (assetId : String)
    (h : countOpenRepairs db assetId = 0) :
    (∃ e, end_repair db now assetId = Except.error e) ∧
    endRepairCommitted db now assetId = db := by
  have hrep : get_active_repair db assetId = none := by
    rw [get_active_repair, List.find?_eq_none]
    exact List.countP_eq_zero.mp h
  cases hfa : findAsset db assetId with
  | none =>
    have he : end_repair db now assetId = Except.error ("Asset " ++ assetId ++ " not found") := by
      unfold end_repair
      rw [hfa]
    exact ⟨⟨_, he⟩, by simp [endRepairCommitted, he]⟩
  | some a =>
    have he : end_repair db now assetId =
        Except.error ("No active repair found for " ++ assetId) := by
      unfold end_repair
      rw [hfa, hrep]
    exact ⟨⟨_, he⟩, by simp [endRepairCommitted, he]⟩

/-- C5: on an asset with no open repair record, end_repair raises a not-found
error and changes nothing; and starting from a store satisfying the
one-open-repair invariant, a successful end_repair leaves no open repair, so
the second of two consecutive calls raises and changes nothing: no second end
timestamp is ever stamped. -/
theorem end_repair_idempotent (db : DB) (now now2 : Nat) (assetId : String) :
    (countOpenRepairs db assetId = 0 →
      (∃ e, end_repair db now assetId = Except.error e) ∧
      endRepairCommitted db now assetId = db) ∧
    (countOpenRepairs db assetId ≤ 1 →
      ∀ db2, end_repair db now assetId = Except.ok db2 →
        countOpenRepairs db2 assetId = 0 ∧
        (∃ e, end_repair db2 now2 assetId = Except.error e) ∧
        endRepairCommitted db2 now2 assetId = db2) := by
  constructor
  · exact end_repair_err_of_no_open db now assetId
  · intro hle db2 hok
    obtain ⟨hreps, repair, hrep⟩ := end_repair_ok_repairs db now assetId db2 hok
    have hmem := List.mem_of_find?_eq_some hrep
    have hpred := List.find?_some hrep
    have hpos : 0 < countOpenRepairs db assetId := by
      rw [countOpenRepairs, List.countP_pos_iff]
      exact ⟨repair, hmem, hpred⟩
    have hzero : countOpenRepairs db2 assetId = 0 := by
      rw [countOpenRepairs, hreps, stampFirstOpen_countP assetId now db.repairs hpos]
      rw [countOpenRepairs] at hle hpos
      omega
    exact ⟨hzero, end_repair_err_of_no_open db2 now2 assetId hzero⟩

theorem end_repair_idempotent_witness :
    countOpenRepairs (endRepairCommitted doubleRepairDB 9 "AST_1001") "AST_1001" = 0 ∧
    endRepairCommitted (endRepairCommitted doubleRepairDB 9 "AST_1001") 11 "AST_1001" =
      endRepairCommitted doubleRepairDB 9 "AST_1001" := by
  have h := (end_repair_idempotent doubleRepairDB 9 11 "AST_1001").2 (by decide)
    (endRepairCommitted doubleRepairDB 9 "AST_1001") (by rfl)
  exact ⟨h.1, h.2.2⟩

/-! ### C6: loaner return on end_repair -/

theorem resetLoaner_assetId (tempAssetId : String) (a : Asset) :
    (resetLoaner tempAssetId a).assetId = a.assetId := by
  unfold resetLoaner
  split <;> rfl

theorem clearRepairFlag_assetId (assetId : String) (a : Asset) :
    (clearRepairFlag assetId a).assetId = a.assetId := by
  unfold clearRepairFlag
  split <;> rfl

theorem stampFirstOpen_mem (assetId : String) (now : Nat) :
    ∀ (l : List RepairRow) (r : RepairRow),
      l.find? (fun x => x.assetId == assetId && x.repairEnd == none) = some r →
      ({ r with repairEnd := some now } : RepairRow) ∈ stampFirstOpen assetId now l := by
  intro l
  induction l with
  | nil => intro r h; simp at h
  | cons x rest ih =>
    intro r h
    by_cases hx : (x.assetId == assetId && x.repairEnd == none) = true
    · simp only [List.find?_cons, hx] at h
      injection h with h
      unfold stampFirstOpen
      rw [if_pos hx, h]
      exact List.mem_cons_self _ _
    · rw [Bool.not_eq_true] at hx
      simp only [List.find?_cons, hx] at h
      unfold stampFirstOpen
      rw [hx]
      simp only [Bool.false_eq_true, if_false]
      exact List.mem_cons_of_mem _ (ih r h)

theorem closeLoanerRow_map_inactive (tempAssetId : String) (now : Nat)
    (l : List HistoryRow) :
    ∀ r ∈ l.map (closeLoanerRow tempAssetId now), r.assetId = tempAssetId →
      r.isActive = false := by
  intro r hr hid
  obtain ⟨r0, hr0, rfl⟩ := List.mem_map.mp hr
  unfold closeLoanerRow at hid ⊢
  by_cases h : (r0.assetId == tempAssetId && r0.isActive) = true
  · rw [if_pos h]
  · rw [if_neg h] at hid ⊢
    simp only [Bool.and_eq_true, beq_iff_eq, not_and] at h
    exact Bool.not_eq_true r0.isActive |>.mp (h hid)

/-- Store where the open repair references a loaner that is not flagged
isLoanerInUse (reachable: startRepair on a holderless asset records the
loaner without flagging it, then the loaner gets assigned via reassign). -/
def staleLoanerDB : DB :=
  { emptyDB with
    assets := [mkAsset "AST_1001" none true false,
               mkAsset "AST_2002" (some "E9") false false],
    history := [{ assetId := "AST_2002", employeeId := "E9", employeeName := some "Eve",
                  assignedOn := 0, returnedOn := none, isActive := true }],
    people := [{ nameId := "E9", name := some "Eve", department := some "IT",
                 email := none }],
    repairs := [{ assetId := "AST_1001", tempAssetId := "AST_2002",
                  repairDetails := "screen", repairStart := 1, repairEnd := none }] }

/-- C6 counterexample: the claim fails as stated.  The open repair record of
AST_1001 references loaner AST_2002 (different from the asset), end_repair
succeeds, yet the loaner keeps its holder E9 and its active assignment
record: the guard temp_asset.IsTempAsset skips the whole return block. -/
theorem end_repair_stale_loaner_counterexample :
    (end_repair staleLoanerDB 9 "AST_1001").isOk = true ∧
    (findAsset (endRepairCommitted staleLoanerDB 9 "AST_1001") "AST_2002").map
      Asset.assignedTo = some (some "E9") ∧
    countActiveFor (endRepairCommitted staleLoanerDB 9 "AST_1001") "AST_2002" = 1 := by
  exact ⟨rfl, rfl, rfl⟩

/-- C6 amended: when the open repair record of the asset references a loaner
different from the asset itself AND that loaner exists and is currently
flagged isLoanerInUse, a successful end_repair returns the loaner: its active
assignment records are closed (provided the loaner has a holder reference,
which is when the code runs the closing UPDATE), its flag is cleared and its
holder reference emptied, the repair record end timestamp is stamped to now,
and the asset repair flag is cleared. -/
theorem end_repair_returns_flagged_loaner (db : DB) (now : Nat) (assetId : String)
    (repair : RepairRow) (tempAsset : Asset)
    (hfa : (findAsset db assetId).isSome = true)
    (hrep : get_active_repair db assetId = some repair)
    (htne : repair.tempAssetId ≠ assetId)
    (htnemp : repair.tempAssetId ≠ "")
    (htemp : findAsset db repair.tempAssetId = some tempAsset)
    (hflag : tempAsset.isTempAsset = true) :
    ∃ db2, end_repair db now assetId = Except.ok db2 ∧
      (isTruthy tempAsset.assignedTo = true →
        ∀ r ∈ db2.history, r.assetId = repair.tempAssetId → r.isActive = false) ∧
      (isTruthy tempAsset.assignedTo = true →
        ∀ r ∈ db.history, r.assetId = repair.tempAssetId → r.isActive = true →
          ({ r with returnedOn := some now, isActive := false } : HistoryRow) ∈ db2.history) ∧
      findAsset db2 repair.tempAssetId =
        some { tempAsset with isTempAsset := false, assignedTo := none } ∧
      ({ repair with repairEnd := some now } : RepairRow) ∈ db2.repairs ∧
      (findAsset db2 assetId).map Asset.repairStatus = some false := by
  obtain ⟨asset, hfasset⟩ : ∃ a, findAsset db assetId = some a := by
    cases h : findAsset db assetId
    · rw [h] at hfa; simp at hfa
    · exact ⟨_, rfl⟩
  have hcond1 : (repair.tempAssetId != "" && repair.tempAssetId != assetId) = true := by
    simp [bne, htnemp, htne]
  have hL : loanerReturnStep db now assetId repair =
      { (if isTruthy tempAsset.assignedTo then
          { db with history := db.history.map (closeLoanerRow repair.tempAssetId now) }
         else db) with
        assets := (if isTruthy tempAsset.assignedTo then
          { db with history := db.history.map (closeLoanerRow repair.tempAssetId now) }
         else db).assets.map (resetLoaner repair.tempAssetId) } := by
    unfold loanerReturnStep
    simp only [hcond1, htemp, hflag, if_true]
  have hrun : end_repair db now assetId = Except.ok
      { loanerReturnStep db now assetId repair with
        repairs := stampFirstOpen assetId now (loanerReturnStep db now assetId repair).repairs,
        assets := (loanerReturnStep db now assetId repair).assets.map
          (clearRepairFlag assetId) } := by
    unfold end_repair
    rw [hfasset, hrep]
  refine ⟨_, hrun, ?_, ?_, ?_, ?_, ?_⟩
  · intro ht r hr hid
    simp only [hL] at hr
    rw [if_pos ht] at hr
    simp only at hr
    obtain ⟨r0, hr0, rfl⟩ := List.mem_map.mp (by exact hr)
    exact closeLoanerRow_map_inactive repair.tempAssetId now db.history _
      (List.mem_map_of_mem _ hr0) hid
  · intro ht r hr hid hact
    simp only [hL]
    rw [if_pos ht]
    simp only
    have : closeLoanerRow repair.tempAssetId now r =
        { r with returnedOn := some now, isActive := false } := by
      unfold closeLoanerRow
      rw [if_pos]
      simp [hid, hact]
    rw [← this]
    exact List.mem_map_of_mem _ hr
  · have htid : tempAsset.assetId = repair.tempAssetId := by
      have := List.find?_some htemp
      simpa [beq_iff_eq] using this
    have hreset : resetLoaner repair.tempAssetId tempAsset =
        { tempAsset with isTempAsset := false, assignedTo := none } := by
      unfold resetLoaner
      rw [if_pos (by simp [htid])]
    have hclear : clearRepairFlag assetId
        ({ tempAsset with isTempAsset := false, assignedTo := none } : Asset) =
        { tempAsset with isTempAsset := false, assignedTo := none } := by
      unfold clearRepairFlag
      rw [if_neg (by simp [htid]; exact htne)]
    simp only [hL]
    unfold findAsset
    by_cases ht : isTruthy tempAsset.assignedTo = true
    · rw [if_pos ht]
      simp only
      rw [find?_assetId_map _ _ _ (clearRepairFlag_assetId assetId),
          find?_assetId_map _ _ _ (resetLoaner_assetId repair.tempAssetId)]
      have hfind0 : db.assets.find? (fun a => a.assetId == repair.tempAssetId) =
          some tempAsset := htemp
      rw [hfind0, Option.map_some', hreset, Option.map_some', hclear]
    · rw [if_neg ht]
      simp only
      rw [find?_assetId_map _ _ _ (clearRepairFlag_assetId assetId),
          find?_assetId_map _ _ _ (resetLoaner_assetId repair.tempAssetId)]
      have hfind0 : db.assets.find? (fun a => a.assetId == repair.tempAssetId) =
          some tempAsset := htemp
      rw [hfind0, Option.map_some', hreset, Option.map_some', hclear]
  · simp only [hL]
    have hreps : (if isTruthy tempAsset.assignedTo then
        { db with history := db.history.map (closeLoanerRow repair.tempAssetId now) }
       else db).repairs = db.repairs := by
      split <;> rfl
    simp only [hreps]
    have hrep2 : db.repairs.find? (fun x => x.assetId == assetId && x.repairEnd == none) =
        some repair := hrep
    exact stampFirstOpen_mem assetId now db.repairs repair hrep2
  · have haid : asset.assetId = assetId := by
      have := List.find?_some hfasset
      simpa [beq_iff_eq] using this
    have hreset : resetLoaner repair.tempAssetId asset = asset := by
      unfold resetLoaner
      rw [if_neg (by simp [haid]; intro h; exact htne h.symm)]
    have hclear : clearRepairFlag assetId asset = { asset with repairStatus := false } := by
      unfold clearRepairFlag
      rw [if_pos (by simp [haid])]
    simp only [hL]
    unfold findAsset
    have hassets : (if isTruthy tempAsset.assignedTo then
        { db with history := db.history.map (closeLoanerRow repair.tempAssetId now) }
       else db).assets = db.assets := by
      split <;> rfl
    simp only [hassets]
    rw [find?_assetId_map _ _ _ (clearRepairFlag_assetId assetId),
        find?_assetId_map _ _ _ (resetLoaner_assetId repair.tempAssetId)]
    have hfind0 : db.assets.find? (fun a => a.assetId == assetId) = some asset := hfasset
    rw [hfind0, Option.map_some', hreset, Option.map_some', hclear, Option.map_some']

/-- Store for the witness: AST_1001 under repair with loaner AST_2002
properly flagged and assigned to E1, one active assignment record for the
loaner. -/
def activeLoanerDB : DB :=
  { emptyDB with
    assets := [mkAsset "AST_1001" (some "E1") true false,
               mkAsset "AST_2002" (some "E1") false true],
    history := [{ assetId := "AST_2002", employeeId := "E1", employeeName := some "Alice",
                  assignedOn := 3, returnedOn := none, isActive := true }],
    people := [{ nameId := "E1", name := some "Alice", department := some "IT",
                 email := none }],
    repairs := [{ assetId := "AST_1001", tempAssetId := "AST_2002",
                  repairDetails := "fix", repairStart := 3, repairEnd := none }] }

/-- Repair row of activeLoanerDB, named for the witness statement. -/
def exRepair6 : RepairRow :=
  { assetId := "AST_1001", tempAssetId := "AST_2002", repairDetails := "fix",
    repairStart := 3, repairEnd := none }

/-- Loaner asset row of activeLoanerDB, named for the witness statement. -/
def exLoaner6 : Asset := mkAsset "AST_2002" (some "E1") false true

theorem end_repair_returns_flagged_loaner_witness :
    end_repair activeLoanerDB 9 "AST_1001" =
      Except.ok (endRepairCommitted activeLoanerDB 9 "AST_1001") ∧
    findAsset (endRepairCommitted activeLoanerDB 9 "AST_1001") "AST_2002" =
      some { exLoaner6 with isTempAsset := false, assignedTo := none } ∧
    ({ exRepair6 with repairEnd := some 9 } : RepairRow) ∈
      (endRepairCommitted activeLoanerDB 9 "AST_1001").repairs ∧
    (findAsset (endRepairCommitted activeLoanerDB 9 "AST_1001") "AST_1001").map
      Asset.repairStatus = some false ∧
    ({ assetId := "AST_2002", employeeId := "E1", employeeName := some "Alice",
       assignedOn := 3, returnedOn := some 9, isActive := false } : HistoryRow) ∈
      (endRepairCommitted activeLoanerDB 9 "AST_1001").history := by
  obtain ⟨db2, h1, h2, h3, h4, h5, h6⟩ := end_repair_returns_flagged_loaner activeLoanerDB 9
    "AST_1001" exRepair6 exLoaner6
    (by decide) (by decide) (by decide) (by decide) (by decide) (by decide)
  have hc : endRepairCommitted activeLoanerDB 9 "AST_1001" = db2 := by
    simp only [endRepairCommitted, h1]
  rw [hc]
  refine ⟨h1, h4, h5, h6, ?_⟩
  exact h3 (by decide)
    ({ assetId := "AST_2002", employeeId := "E1", employeeName := some "Alice",
       assignedOn := 3, returnedOn := none, isActive := true } : HistoryRow)
    (by decide) (by decide) (by decide)

/-! ### C7: reassignment transfer behaviour -/

theorem closeOldStep_people (db : DB) (today : Nat) (assetId : String)
    (oldEmp newEmp : Option String) :
    (closeOldStep db today assetId oldEmp newEmp).people = db.people := by
  unfold closeOldStep
  split <;> rfl

theorem closeOldStep_assets (db : DB) (today : Nat) (assetId : String)
    (oldEmp newEmp : Option String) :
    (closeOldStep db today assetId oldEmp newEmp).assets = db.assets := by
  unfold closeOldStep
  split <;> rfl

theorem openNewStep_assets (db : DB) (today : Nat) (assetId : String)
    (oldEmp newEmp : Option String) :
    (openNewStep db today assetId oldEmp newEmp).assets = db.assets := by
  unfold openNewStep
  split <;> rfl

theorem updateAssetRow_assetId (assetId : String) (newEmp : Option String)
    (repairStatus : Bool) (a : Asset) :
    (updateAssetRow assetId newEmp repairStatus a).assetId = a.assetId := by
  unfold updateAssetRow
  split <;> rfl

theorem resolveEmpName_congr (db1 db : DB) (n : String) (h : db1.people = db.people) :
    resolveEmpName db1 n = resolveEmpName db n := by
  unfold resolveEmpName findPerson
  rw [h]

theorem closeActiveRow_map_closed (assetId o : String) (today : Nat) (l : List HistoryRow) :
    ∀ r ∈ l.map (closeActiveRow assetId o today), r.assetId = assetId → r.employeeId = o →
      r.isActive = false := by
  intro r hr hid hemp
  obtain ⟨r0, hr0, rfl⟩ := List.mem_map.mp hr
  unfold closeActiveRow at hid hemp ⊢
  by_cases h : (r0.assetId == assetId && r0.employeeId == o && r0.isActive) = true
  · rw [if_pos h]
  · rw [if_neg h] at hid hemp ⊢
    simp only [Bool.and_eq_true, beq_iff_eq, not_and] at h
    exact Bool.not_eq_true r0.isActive |>.mp (h ⟨hid, hemp⟩)

/-- Store for the C7 counterexample: asset AST_1001 held by E1 (who exists,
with one active record), schema-consistent; employee E404 does not exist. -/
def fkDB : DB :=
  { emptyDB with
    assets := [mkAsset "AST_1001" (some "E1") false false],
    history := [{ assetId := "AST_1001", employeeId := "E1", employeeName := some "Alice",
                  assignedOn := 0, returnedOn := none, isActive := true }],
    people := [{ nameId := "E1", name := some "Alice", department := some "IT",
                 email := none }] }

/-- C7 counterexample: the claim fails as stated in its raw-id-fallback case.
Reassigning AST_1001 (held by E1) to the unknown employee E404: the claim
says a new active record is opened with the raw id as display name, but the
insert into assignmenthistory and the asset-row update both violate the
enforced foreign key to peopledata.NameId, so the call raises IntegrityError
and rolls back: no record is opened and the asset row is unchanged. -/
theorem reassign_unknown_holder_counterexample :
    AssetRepository.update_assignment fkDB 5 "AST_1001" (some "E404") false =
      Except.error
        "IntegrityError: a foreign key constraint fails, employee reference not in peopledata" ∧
    updateCommitted fkDB 5 "AST_1001" (some "E404") false = fkDB ∧
    findPerson fkDB "E404" = none := by
  exact ⟨rfl, rfl, rfl⟩

/-- C7 amended: for a reassign call on an existing asset whose current holder
differs from the requested one, when the written employee reference satisfies
the enforced foreign key (the non-empty new holder exists in peopledata, or
no holder is given): every active record of (asset, old holder) is closed
with returnedOn = today (rows the close does not target are carried over
unchanged, making it a no-op when none is active); when a non-empty new
holder is given, a new active record dated today is appended with the display
name resolved at that instant; and the asset row holder reference and repair
flag are overwritten with the requested values unconditionally.  When the
requested non-empty holder is absent from peopledata, the call instead
raises IntegrityError and rolls back, leaving the store unchanged. -/
theorem reassign_transfer_behaviour (db : DB) (today : Nat) (assetId : String)
    (newEmp : Option String) (repairStatus : Bool) (asset : Asset)
    (hfind : findAsset db assetId = some asset)
    (hdiff : asset.assignedTo ≠ newEmp) :
    (fkEmployeeOk db newEmp = true →
      ∃ db2, AssetRepository.update_assignment db today assetId newEmp repairStatus =
          Except.ok db2 ∧
        (∀ o, asset.assignedTo = some o → o ≠ "" →
          (∀ r ∈ db2.history, r.assetId = assetId → r.employeeId = o →
            r.isActive = false) ∧
          (∀ r ∈ db.history, r.assetId = assetId → r.employeeId = o → r.isActive = true →
            ({ r with returnedOn := some today, isActive := false } : HistoryRow)
              ∈ db2.history)) ∧
        (∀ r ∈ db.history, closeActiveRow assetId (asset.assignedTo.getD "") today r = r →
          r ∈ db2.history) ∧
        (∀ n, newEmp = some n → n ≠ "" →
          ({ assetId := assetId, employeeId := n, employeeName := resolveEmpName db n,
             assignedOn := today, returnedOn := none, isActive := true } : HistoryRow)
            ∈ db2.history) ∧
        findAsset db2 assetId =
          some { asset with assignedTo := pyOrNone newEmp, repairStatus := repairStatus } ∧
        (∀ a ∈ db.assets, a.assetId ≠ assetId → a ∈ db2.assets)) ∧
    (fkEmployeeOk db newEmp = false →
      AssetRepository.update_assignment db today assetId newEmp repairStatus =
        Except.error
          "IntegrityError: a foreign key constraint fails, employee reference not in peopledata" ∧
      updateCommitted db today assetId newEmp repairStatus = db) := by
  have hbne : (asset.assignedTo != newEmp) = true := by
    simp [bne, hdiff]
  have hopen_hist : ∀ dbc : DB,
      (openNewStep dbc today assetId asset.assignedTo newEmp).history = dbc.history ∨
      ((isTruthy newEmp = true) ∧
        (openNewStep dbc today assetId asset.assignedTo newEmp).history = dbc.history ++
          [{ assetId := assetId, employeeId := newEmp.getD "",
             employeeName := resolveEmpName dbc (newEmp.getD ""), assignedOn := today,
             returnedOn := none, isActive := true }]) := by
    intro dbc
    unfold openNewStep
    by_cases ht : isTruthy newEmp = true
    · right
      refine ⟨ht, ?_⟩
      rw [if_pos (by rw [hbne, ht]; rfl)]
    · left
      rw [if_neg (by rw [Bool.not_eq_true] at ht; simp [ht])]
  constructor
  case right =>
    intro hfk
    have herr : AssetRepository.update_assignment db today assetId newEmp repairStatus =
        Except.error
          "IntegrityError: a foreign key constraint fails, employee reference not in peopledata" := by
      unfold AssetRepository.update_assignment
      rw [hfind, hfk]
      rfl
    exact ⟨herr, by simp [updateCommitted, herr]⟩
  intro hfk
  have hrun : AssetRepository.update_assignment db today assetId newEmp repairStatus =
      Except.ok { openNewStep (closeOldStep db today assetId asset.assignedTo newEmp) today
          assetId asset.assignedTo newEmp with
        assets := (openNewStep (closeOldStep db today assetId asset.assignedTo newEmp) today
          assetId asset.assignedTo newEmp).assets.map
            (updateAssetRow assetId newEmp repairStatus) } := by
    unfold AssetRepository.update_assignment
    rw [hfind, hfk]
    rfl
  refine ⟨_, hrun, ?_, ?_, ?_, ?_, ?_⟩
  · intro o ho hone
    have htruthy : isTruthy asset.assignedTo = true := by
      rw [ho]
      simpa [isTruthy] using hone
    have hclosec : closeOldStep db today assetId asset.assignedTo newEmp =
        { db with history := db.history.map (closeActiveRow assetId o today) } := by
      unfold closeOldStep
      rw [if_pos (by rw [hbne, htruthy]; rfl), ho]
      rfl
    constructor
    · intro r hr hid hemp
      rcases hopen_hist (closeOldStep db today assetId asset.assignedTo newEmp)
        with hoh | ⟨ht, hoh⟩
      · rw [hoh, hclosec] at hr
        exact closeActiveRow_map_closed assetId o today db.history r hr hid hemp
      · rw [hoh, hclosec] at hr
        simp only [List.mem_append, List.mem_singleton] at hr
        rcases hr with hr | rfl
        · exact closeActiveRow_map_closed assetId o today db.history r hr hid hemp
        · exfalso
          simp only at hemp
          apply hdiff
          rw [ho]
          cases newEmp with
          | none => simp [isTruthy] at ht
          | some n =>
            simp only [Option.getD_some] at hemp
            rw [hemp]
    · intro r hr hid hemp hact
      have hmatch : (r.assetId == assetId && r.employeeId == o && r.isActive) = true := by
        simp [hid, hemp, hact]
      have hmem2 : closeActiveRow assetId o today r ∈
          db.history.map (closeActiveRow assetId o today) :=
        List.mem_map_of_mem _ hr
      have hval : closeActiveRow assetId o today r =
          { r with returnedOn := some today, isActive := false } := by
        unfold closeActiveRow
        rw [if_pos hmatch]
      rw [hval] at hmem2
      rcases hopen_hist (closeOldStep db today assetId asset.assignedTo newEmp)
        with hoh | ⟨_, hoh⟩
      · rw [hoh, hclosec]
        exact hmem2
      · rw [hoh, hclosec]
        exact List.mem_append_left _ hmem2
  · intro r hr hnoop
    have hstep : r ∈ (closeOldStep db today assetId asset.assignedTo newEmp).history := by
      unfold closeOldStep
      split
      · simp only
        rw [← hnoop]
        exact List.mem_map_of_mem _ hr
      · exact hr
    rcases hopen_hist (closeOldStep db today assetId asset.assignedTo newEmp)
      with hoh | ⟨_, hoh⟩
    · rw [hoh]
      exact hstep
    · rw [hoh]
      exact List.mem_append_left _ hstep
  · intro n hn hnone
    subst hn
    have ht : isTruthy (some n) = true := by
      simpa [isTruthy] using hnone
    rcases hopen_hist (closeOldStep db today assetId asset.assignedTo (some n))
      with hoh | ⟨_, hoh⟩
    · unfold openNewStep at hoh
      rw [if_pos (by rw [hbne, ht]; rfl)] at hoh
      exfalso
      have := congrArg List.length hoh
      simp at this
    · rw [hoh]
      simp only [Option.getD_some]
      rw [resolveEmpName_congr _ db n (closeOldStep_people db today assetId
        asset.assignedTo (some n))]
      exact List.mem_append_right _ (List.mem_singleton.mpr rfl)
  · have haid : asset.assetId = assetId := by
      have := List.find?_some hfind
      simpa [beq_iff_eq] using this
    unfold findAsset
    simp only
    rw [find?_assetId_map _ _ _ (updateAssetRow_assetId assetId newEmp repairStatus)]
    rw [openNewStep_assets, closeOldStep_assets]
    have hfind0 : db.assets.find? (fun a => a.assetId == assetId) = some asset := hfind
    rw [hfind0, Option.map_some']
    unfold updateAssetRow
    rw [if_pos (by simp [haid])]
  · intro a ha hane
    simp only
    rw [openNewStep_assets, closeOldStep_assets]
    have hrow : updateAssetRow assetId newEmp repairStatus a = a := by
      unfold updateAssetRow
      rw [if_neg (by simp [hane])]
    rw [← hrow]
    exact List.mem_map_of_mem _ ha

/-- Asset row of consistentDB, named for the witness statement. -/
def exAsset7 : Asset := mkAsset "AST_1001" (some "E1") false false

theorem reassign_transfer_behaviour_witness :
    AssetRepository.update_assignment consistentDB 7 "AST_1001" (some "E2") false =
      Except.ok (updateCommitted consistentDB 7 "AST_1001" (some "E2") false) ∧
    ({ assetId := "AST_1001", employeeId := "E1", employeeName := some "Alice",
       assignedOn := 0, returnedOn := some 7, isActive := false } : HistoryRow) ∈
      (updateCommitted consistentDB 7 "AST_1001" (some "E2") false).history ∧
    ({ assetId := "AST_1001", employeeId := "E2",
       employeeName := resolveEmpName consistentDB "E2", assignedOn := 7,
       returnedOn := none, isActive := true } : HistoryRow) ∈
      (updateCommitted consistentDB 7 "AST_1001" (some "E2") false).history ∧
    findAsset (updateCommitted consistentDB 7 "AST_1001" (some "E2") false) "AST_1001" =
      some { exAsset7 with assignedTo := pyOrNone (some "E2"), repairStatus := false } := by
  obtain ⟨db2, h1, h2, h3, h4, h5, h6⟩ := (reassign_transfer_behaviour consistentDB 7
    "AST_1001" (some "E2") false exAsset7 (by decide) (by decide)).1 (by decide)
  have hc : updateCommitted consistentDB 7 "AST_1001" (some "E2") false = db2 := by
    simp only [updateCommitted, h1]
  rw [hc]
  refine ⟨h1, ?_, ?_, h5⟩
  · exact (h2 "E1" (by decide) (by decide)).2
      ({ assetId := "AST_1001", employeeId := "E1", employeeName := some "Alice",
         assignedOn := 0, returnedOn := none, isActive := true } : HistoryRow)
      (by decide) (by decide) (by decide) (by decide)
  · exact h4 "E2" rfl (by decide)

/-! ### C9: summary grouping, counts and ordering -/

/-- Count recorded for a key in a group list (first matching entry). -/
def lookupCount (k : SummaryKey) (l : List (SummaryKey × Nat)) : Nat :=
  match l.find? (fun p => p.1 == k) with
  | some p => p.2
  | none => 0

theorem lookupCount_bump_same (k : SummaryKey) :
    ∀ l : List (SummaryKey × Nat), lookupCount k (bumpKey k l) = lookupCount k l + 1 := by
  intro l
  induction l with
  | nil => simp [bumpKey, lookupCount, List.find?]
  | cons q rest ih =>
    obtain ⟨k2, c⟩ := q
    by_cases h : (k2 == k) = true
    · unfold bumpKey
      rw [if_pos h]
      unfold lookupCount
      simp only [List.find?_cons, h]
    · unfold bumpKey
      rw [if_neg h]
      unfold lookupCount
      rw [Bool.not_eq_true] at h
      simp only [List.find?_cons, h]
      exact ih

theorem lookupCount_bump_other (k k2 : SummaryKey) (hne : k2 ≠ k) :
    ∀ l : List (SummaryKey × Nat), lookupCount k (bumpKey k2 l) = lookupCount k l := by
  have hbeq : (k2 == k) = false := by
    simpa using hne
  intro l
  induction l with
  | nil => simp [bumpKey, lookupCount, List.find?, hbeq]
  | cons q rest ih =>
    obtain ⟨k3, c⟩ := q
    by_cases h : (k3 == k2) = true
    · have hk3 : (k3 == k) = false := by
        have : k3 = k2 := by simpa using h
        rw [this]
        exact hbeq
      unfold bumpKey
      rw [if_pos h]
      unfold lookupCount
      simp only [List.find?_cons, hk3]
    · unfold bumpKey
      rw [if_neg h]
      unfold lookupCount
      by_cases h2 : (k3 == k) = true
      · simp only [List.find?_cons, h2]
      · rw [Bool.not_eq_true] at h2
        simp only [List.find?_cons, h2]
        exact ih

theorem lookupCount_fold (people : List Employee) :
    ∀ (l : List Asset) (acc : List (SummaryKey × Nat)) (k : SummaryKey),
      lookupCount k (l.foldl (fun acc a => bumpKey (summaryKeyOf people a) acc) acc) =
        lookupCount k acc + l.countP (fun a => summaryKeyOf people a == k) := by
  intro l
  induction l with
  | nil => intro acc k; simp
  | cons a rest ih =>
    intro acc k
    simp only [List.foldl_cons, List.countP_cons]
    rw [ih]
    by_cases h : (summaryKeyOf people a == k) = true
    · have hk : summaryKeyOf people a = k := by simpa using h
      rw [hk, lookupCount_bump_same]
      simp only [beq_self_eq_true, if_true]
      omega
    · rw [lookupCount_bump_other k (summaryKeyOf people a) (by simpa using h)]
      rw [Bool.not_eq_true] at h
      rw [h]
      simp

theorem mem_keys_bump (x k : SummaryKey) :
    ∀ l : List (SummaryKey × Nat),
      x ∈ (bumpKey k l).map Prod.fst → x ∈ l.map Prod.fst ∨ x = k := by
  intro l
  induction l with
  | nil => intro h; simp [bumpKey] at h; right; exact h
  | cons q rest ih =>
    obtain ⟨k2, c⟩ := q
    intro h
    by_cases hk : (k2 == k) = true
    · unfold bumpKey at h
      rw [if_pos hk] at h
      left
      simpa using h
    · unfold bumpKey at h
      rw [if_neg hk] at h
      simp only [List.map_cons, List.mem_cons] at h
      rcases h with h | h
      · left; simp [h]
      · rcases ih h with h | h
        · left; simp only [List.map_cons, List.mem_cons]; right; exact h
        · right; exact h

theorem bump_keys_nodup (k : SummaryKey) :
    ∀ l : List (SummaryKey × Nat),
      (l.map Prod.fst).Nodup → ((bumpKey k l).map Prod.fst).Nodup := by
  intro l
  induction l with
  | nil => intro _; simp [bumpKey]
  | cons q rest ih =>
    obtain ⟨k2, c⟩ := q
    intro h
    simp only [List.map_cons, List.nodup_cons] at h
    by_cases hk : (k2 == k) = true
    · unfold bumpKey
      rw [if_pos hk]
      simp only [List.map_cons, List.nodup_cons]
      exact h
    · unfold bumpKey
      rw [if_neg hk]
      simp only [List.map_cons, List.nodup_cons]
      refine ⟨?_, ih h.2⟩
      intro hmem
      rcases mem_keys_bump k2 k rest hmem with h2 | h2
      · exact h.1 h2
      · rw [Bool.not_eq_true] at hk
        rw [h2] at hk
        simp at hk

theorem entry_eq_lookup :
    ∀ l : List (SummaryKey × Nat), (l.map Prod.fst).Nodup →
      ∀ p ∈ l, lookupCount p.1 l = p.2 := by
  intro l
  induction l with
  | nil => intro _ p hp; simp at hp
  | cons q rest ih =>
    intro h p hp
    simp only [List.map_cons, List.nodup_cons] at h
    rcases List.mem_cons.mp hp with rfl | hp2
    · unfold lookupCount
      simp only [List.find?_cons, beq_self_eq_true]
    · have hne : (q.1 == p.1) = false := by
        by_contra hc
        rw [Bool.not_eq_false, beq_iff_eq] at hc
        apply h.1
        rw [hc]
        exact List.mem_map_of_mem Prod.fst hp2
      unfold lookupCount
      simp only [List.find?_cons, hne]
      exact ih h.2 p hp2

theorem summaryGroups_keys_nodup (db : DB) : ((summaryGroups db).map Prod.fst).Nodup := by
  unfold summaryGroups
  have inv : ∀ (l : List Asset) (acc : List (SummaryKey × Nat)),
      (acc.map Prod.fst).Nodup →
      ((l.foldl (fun acc a => bumpKey (summaryKeyOf db.people a) acc) acc).map
        Prod.fst).Nodup := by
    intro l
    induction l with
    | nil => intro acc h; exact h
    | cons a rest ih =>
      intro acc h
      simp only [List.foldl_cons]
      exact ih _ (bump_keys_nodup (summaryKeyOf db.people a) acc h)
  exact inv db.assets [] (by simp)

theorem lookup_pos_mem (k : SummaryKey) (l : List (SummaryKey × Nat))
    (h : 0 < lookupCount k l) : ∃ p ∈ l, p.1 = k := by
  unfold lookupCount at h
  cases hf : l.find? (fun p => p.1 == k) with
  | none => rw [hf] at h; simp at h
  | some p =>
    refine ⟨p, List.mem_of_find?_eq_some hf, ?_⟩
    have := List.find?_some hf
    simpa [beq_iff_eq] using this

theorem summaryTypeLe_trans : ∀ a b c : SummaryKey × Nat,
    summaryTypeLe a b = true → summaryTypeLe b c = true → summaryTypeLe a c = true := by
  intro a b c
  simp only [summaryTypeLe, decide_eq_true_eq]
  exact le_trans

theorem summaryTypeLe_total : ∀ a b : SummaryKey × Nat,
    (summaryTypeLe a b || summaryTypeLe b a) = true := by
  intro a b
  simp only [summaryTypeLe, Bool.or_eq_true, decide_eq_true_eq]
  exact le_total _ _

theorem keyFullLeProp_trans (a b c : SummaryKey) (h1 : keyFullLeProp a b)
    (h2 : keyFullLeProp b c) : keyFullLeProp a c := by
  unfold keyFullLeProp at h1 h2 ⊢
  rcases h1 with h1 | ⟨e1, h1⟩ <;> rcases h2 with h2 | ⟨e2, h2⟩
  · left; exact lt_trans h1 h2
  · left; rwa [← e2]
  · left; rwa [e1]
  · refine Or.inr ⟨e1.trans e2, ?_⟩
    rcases h1 with h1 | ⟨f1, h1⟩ <;> rcases h2 with h2 | ⟨f2, h2⟩
    · left; exact lt_trans h1 h2
    · left; rwa [← f2]
    · left; rwa [f1]
    · refine Or.inr ⟨f1.trans f2, ?_⟩
      rcases h1 with h1 | ⟨g1, h1⟩ <;> rcases h2 with h2 | ⟨g2, h2⟩
      · left; exact lt_trans h1 h2
      · left; rwa [← g2]
      · left; rwa [g1]
      · exact Or.inr ⟨g1.trans g2, le_trans h1 h2⟩

theorem keyFullLeProp_total (a b : SummaryKey) : keyFullLeProp a b ∨ keyFullLeProp b a := by
  unfold keyFullLeProp
  rcases lt_trichotomy a.assetType b.assetType with h | h | h
  · exact Or.inl (Or.inl h)
  · rcases lt_trichotomy a.department b.department with h2 | h2 | h2
    · exact Or.inl (Or.inr ⟨h, Or.inl h2⟩)
    · rcases lt_trichotomy a.brand b.brand with h3 | h3 | h3
      · exact Or.inl (Or.inr ⟨h, Or.inr ⟨h2, Or.inl h3⟩⟩)
      · rcases le_total a.model b.model with h4 | h4
        · exact Or.inl (Or.inr ⟨h, Or.inr ⟨h2, Or.inr ⟨h3, h4⟩⟩⟩)
        · exact Or.inr (Or.inr ⟨h.symm, Or.inr ⟨h2.symm, Or.inr ⟨h3.symm, h4⟩⟩⟩)
      · exact Or.inr (Or.inr ⟨h.symm, Or.inr ⟨h2.symm, Or.inl h3⟩⟩)
    · exact Or.inr (Or.inr ⟨h.symm, Or.inl h2⟩)
  · exact Or.inr (Or.inl h)

theorem summaryFullLe_trans : ∀ a b c : SummaryKey × Nat,
    summaryFullLe a b = true → summaryFullLe b c = true → summaryFullLe a c = true := by
  intro a b c
  simp only [summaryFullLe, decide_eq_true_eq]
  exact keyFullLeProp_trans a.1 b.1 c.1

theorem summaryFullLe_total : ∀ a b : SummaryKey × Nat,
    (summaryFullLe a b || summaryFullLe b a) = true := by
  intro a b
  simp only [summaryFullLe, Bool.or_eq_true, decide_eq_true_eq]
  exact keyFullLeProp_total a.1 b.1

/-- Two holderless laptops of the same type whose brands arrive in reverse
alphabetical order. -/
def summaryDB9 : DB :=
  { emptyDB with
    assets := [{ mkAsset "AST_1" none false false with brand := "B2" },
               { mkAsset "AST_2" none false false with brand := "B1" }] }

/-- Group key of the first asset of summaryDB9. -/
def exKey92 : SummaryKey :=
  { assetType := "Laptop", department := "Not Assigned", brand := "B2", model := "X1" }

/-- Group key of the second asset of summaryDB9. -/
def exKey91 : SummaryKey :=
  { assetType := "Laptop", department := "Not Assigned", brand := "B1", model := "X1" }

/-- C9 counterexample: the claim fails as stated.  The SQLAlchemy summary
orders by AssetType only: with equal types the two group rows keep their scan
order, B2 before B1, violating the claimed (type, department, brand, model)
ordering, whose comparator rejects this adjacent pair. -/
theorem summary_order_counterexample :
    SummaryRepository.get_summary_data summaryDB9 = [(exKey92, 1), (exKey91, 1)] ∧
    summaryFullLe (exKey92, 1) (exKey91, 1) = false := by
  constructor
  · unfold SummaryRepository.get_summary_data
    have hgroups : summaryGroups summaryDB9 = [(exKey92, 1), (exKey91, 1)] := by rfl
    rw [hgroups]
    apply List.mergeSort_of_sorted
    constructor
    · intro b hb
      simp only [List.mem_singleton] at hb
      subst hb
      simp [summaryTypeLe, exKey92, exKey91]
    · simp
  · simp only [summaryFullLe, decide_eq_false_iff_not]
    unfold keyFullLeProp
    simp only [exKey92, exKey91, not_or, not_and]
    constructor
    · simp
    · intro _
      constructor
      · simp
      · intro _
        constructor
        · simp
          decide
        · intro hb
          exfalso
          have : ("B2" : String) ≠ "B1" := by
            intro h
            have := congrArg String.data h
            simp at this
          exact this hb

/-- C9 amended: both summary implementations group all assets by (type,
holder department with the Not Assigned sentinel, brand, model) and report
the exact count of matching assets per group, every asset being represented;
the SQLAlchemy implementation orders the rows by asset type ONLY (within-type
order unspecified), while the legacy DB_utils query orders by all four group
keys. -/
theorem summary_grouping_and_order (db : DB) :
    (SummaryRepository.get_summary_data db).Pairwise
      (fun x y => summaryTypeLe x y = true) ∧
    (∀ p ∈ SummaryRepository.get_summary_data db,
       p.2 = db.assets.countP (fun a => summaryKeyOf db.people a == p.1) ∧ 0 < p.2) ∧
    (∀ a ∈ db.assets, ∃ p ∈ SummaryRepository.get_summary_data db,
       p.1 = summaryKeyOf db.people a) ∧
    (DB_utils.get_summary_data db).Pairwise (fun x y => summaryFullLe x y = true) ∧
    (∀ p ∈ DB_utils.get_summary_data db,
       p.2 = db.assets.countP (fun a => summaryKeyOf db.people a == p.1)) := by
  have hcount : ∀ p ∈ summaryGroups db,
      p.2 = db.assets.countP (fun a => summaryKeyOf db.people a == p.1) := by
    intro p hp
    have h1 := entry_eq_lookup (summaryGroups db) (summaryGroups_keys_nodup db) p hp
    rw [← h1]
    unfold summaryGroups
    rw [lookupCount_fold db.people db.assets [] p.1]
    simp [lookupCount, List.find?]
  have hpos : ∀ p ∈ summaryGroups db, 0 < p.2 := by
    have bump_pos : ∀ (k : SummaryKey) (acc : List (SummaryKey × Nat)),
        (∀ p ∈ acc, 0 < p.2) → ∀ p ∈ bumpKey k acc, 0 < p.2 := by
      intro k acc
      induction acc with
      | nil =>
        intro _ p hp
        simp only [bumpKey, List.mem_singleton] at hp
        rw [hp]
        exact Nat.one_pos
      | cons q rest ih =>
        obtain ⟨k2, c⟩ := q
        intro h p hp
        by_cases hk : (k2 == k) = true
        · unfold bumpKey at hp
          rw [if_pos hk] at hp
          rcases List.mem_cons.mp hp with rfl | hp2
          · simp
          · exact h p (List.mem_cons_of_mem _ hp2)
        · unfold bumpKey at hp
          rw [if_neg hk] at hp
          rcases List.mem_cons.mp hp with rfl | hp2
          · exact h _ (List.mem_cons_self _ _)
          · exact ih (fun p2 hp2 => h p2 (List.mem_cons_of_mem _ hp2)) p hp2
    have inv : ∀ (l : List Asset) (acc : List (SummaryKey × Nat)),
        (∀ p ∈ acc, 0 < p.2) →
        ∀ p ∈ l.foldl (fun acc a => bumpKey (summaryKeyOf db.people a) acc) acc, 0 < p.2 := by
      intro l
      induction l with
      | nil => intro acc h; exact h
      | cons a rest ih =>
        intro acc h
        simp only [List.foldl_cons]
        exact ih _ (bump_pos (summaryKeyOf db.people a) acc h)
    exact inv db.assets [] (by simp)
  have hperm1 : (SummaryRepository.get_summary_data db).Perm (summaryGroups db) :=
    List.mergeSort_perm (summaryGroups db) summaryTypeLe
  have hperm2 : (DB_utils.get_summary_data db).Perm (summaryGroups db) :=
    List.mergeSort_perm (summaryGroups db) summaryFullLe
  refine ⟨?_, ?_, ?_, ?_, ?_⟩
  · exact List.sorted_mergeSort summaryTypeLe_trans summaryTypeLe_total (summaryGroups db)
  · intro p hp
    have hmem := hperm1.mem_iff.mp hp
    exact ⟨hcount p hmem, hpos p hmem⟩
  · intro a ha
    have h1 : 0 < db.assets.countP
        (fun x => summaryKeyOf db.people x == summaryKeyOf db.people a) := by
      rw [List.countP_pos_iff]
      exact ⟨a, ha, by simp⟩
    have h2 : 0 < lookupCount (summaryKeyOf db.people a) (summaryGroups db) := by
      unfold summaryGroups
      rw [lookupCount_fold db.people db.assets [] (summaryKeyOf db.people a)]
      simpa [lookupCount, List.find?] using h1
    obtain ⟨p, hp, hpk⟩ := lookup_pos_mem _ _ h2
    exact ⟨p, hperm1.mem_iff.mpr hp, hpk⟩
  · exact List.sorted_mergeSort summaryFullLe_trans summaryFullLe_total (summaryGroups db)
  · intro p hp
    exact hcount p (hperm2.mem_iff.mp hp)

theorem summary_grouping_and_order_witness :
    (exKey92, 1).2 = summaryDB9.assets.countP
      (fun a => summaryKeyOf summaryDB9.people a == exKey92) ∧
    0 < (exKey92, 1).2 := by
  have hgroups : summaryGroups summaryDB9 = [(exKey92, 1), (exKey91, 1)] := by rfl
  have hdata : SummaryRepository.get_summary_data summaryDB9 =
      [(exKey92, 1), (exKey91, 1)] := by
    unfold SummaryRepository.get_summary_data
    rw [hgroups]
    apply List.mergeSort_of_sorted
    constructor
    · intro b hb
      simp only [List.mem_singleton] at hb
      subst hb
      simp [summaryTypeLe, exKey92, exKey91]
    · simp
  exact (summary_grouping_and_order summaryDB9).2.1 (exKey92, 1)
    (by rw [hdata]; simp)

end AssetMgmt
